import Mathlib

/-!
Verification development for the signal-to-order execution pipeline of the
trading bot (signal parsing, risk gating, order sizing, protective stops,
price monitoring).

Modelling conventions (shallow embedding of the Python source):
* Python strings are modelled as `List Char` (`Str`); Python floats are
  modelled as exact rationals (`ℚ`); `None`-able values as `Option`.
* Regular-expression searches from the source are hand-translated into
  character-list scanners with the same matching semantics on the inputs in
  scope (leftmost search, greedy `\w+`/`\d+` runs, optional groups tried at
  the current position, lazy gaps that expand only when the remainder of the
  pattern cannot otherwise succeed).  Python `re`'s Unicode classes are
  modelled for the character ranges the source actually uses: `\w` covers
  ASCII alphanumerics, underscore and CJK ideographs, `\s` the six ASCII
  whitespace characters, `\d` the ASCII digits.
* Python truthiness on optional floats (`if x:` is false for `None` and for
  `0.0`) is modelled by `truthyOpt`.
* `round(x, k)` (banker's rounding) is modelled by `pyRound`.
* Timestamps are abstract rationals (seconds) and dates abstract integers.
* Fields irrelevant to all claims (raw message text, parse timestamps,
  metadata dictionaries) are omitted from the signal records.
-/

abbrev Str := List Char

/-- The whitespace characters of the source's `\s` / `str.strip()`. -/
def isSpaceChar (c : Char) : Bool :=
  c = ' ' || c = '\t' || c = '\n' || c = '\r' || c = '\x0b' || c = '\x0c'

def isDigitChar (c : Char) : Bool := '0' ≤ c && c ≤ '9'

/-- CJK ideograph range, the part of Python's Unicode `\w` exercised by the
source's Chinese signal keywords. -/
def isCJKChar (c : Char) : Bool := 0x4E00 ≤ c.toNat && c.toNat ≤ 0x9FFF

/-- Python regex `\w` as used on the source's inputs. -/
def isWordChar (c : Char) : Bool := c.isAlphanum || c = '_' || isCJKChar c

/-- Python `str.upper()` (ASCII letters; other characters in scope are fixed). -/
def upperStr (s : Str) : Str := s.map Char.toUpper

/-- Python `str.strip()`. -/
def stripStr (s : Str) : Str :=
  ((s.dropWhile isSpaceChar).reverse.dropWhile isSpaceChar).reverse

def digitsToNat (ds : Str) : Nat := ds.foldl (fun n c => 10 * n + (c.toNat - 48)) 0

/-- Exact value of a decimal literal with integer part `ip` and fractional
part `fp` (Python `float(...)` on a regex-captured `\d+(?:\.\d+)?` group). -/
def numValQ (ip fp : Str) : ℚ :=
  (digitsToNat ip : ℚ) + (digitsToNat fp : ℚ) / (10 : ℚ) ^ fp.length

/-- Python truthiness of an optional float: `None` and `0.0` are falsy. -/
def truthyOpt (x : Option ℚ) : Bool :=
  match x with
  | none => false
  | some v => v ≠ 0

/-- Python 3 `round(x, k)`: round half to even at `k` decimal places. -/
def pyRound (k : Nat) (x : ℚ) : ℚ :=
  let m : ℚ := (10 : ℚ) ^ k
  let y := x * m
  let f : ℤ := Int.floor y
  let r := y - (f : ℚ)
  let n : ℤ :=
    if r > 1 / 2 then f + 1
    else if r < 1 / 2 then f
    else if f % 2 = 0 then f else f + 1
  (n : ℚ) / m

/-! ### Scanner primitives (hand-translated regex pieces) -/

def expectChar (c : Char) : Str → Option Str
  | [] => none
  | d :: r => if d = c then some r else none

def expectSet (cs : List Char) : Str → Option (Char × Str)
  | [] => none
  | d :: r => if cs.contains d then some (d, r) else none

/-- Case-insensitive literal (source patterns compiled with `re.IGNORECASE`). -/
def expectLitCI : Str → Str → Option Str
  | [], s => some s
  | _ :: _, [] => none
  | c :: cr, d :: dr => if d.toLower = c.toLower then expectLitCI cr dr else none

/-- Greedy `\w+`. -/
def scanWord (s : Str) : Option (Str × Str) :=
  let w := s.takeWhile isWordChar
  if w.isEmpty then none else some (w, s.drop w.length)

/-- `\s+`. -/
def scanSpaces1 (s : Str) : Option Str :=
  match s with
  | [] => none
  | c :: _ => if isSpaceChar c then some (s.dropWhile isSpaceChar) else none

/-- `\s*`. -/
def scanSpaces0 (s : Str) : Str := s.dropWhile isSpaceChar

/-- Greedy `\d+(?:\.\d+)?`, returning the exact captured value. -/
def scanNumber (s : Str) : Option (ℚ × Str) :=
  let ip := s.takeWhile isDigitChar
  if ip.isEmpty then none
  else
    let r := s.drop ip.length
    match r with
    | '.' :: r2 =>
        let fp := r2.takeWhile isDigitChar
        if fp.isEmpty then some (numValQ ip [], r)
        else some (numValQ ip fp, r2.drop fp.length)
    | _ => some (numValQ ip [], r)

/-- Greedy `(\d+)`. -/
def scanNat (s : Str) : Option (Nat × Str) :=
  let ip := s.takeWhile isDigitChar
  if ip.isEmpty then none else some (digitsToNat ip, s.drop ip.length)

/-- `re.search`: try the position matcher at every start position, leftmost
match wins. -/
def searchAt {α : Type} (m : Str → Option α) : Str → Option α
  | [] => m []
  | c :: r =>
    match m (c :: r) with
    | some a => some a
    | none => searchAt m r

/-- Python `str.replace(pat, '')`: drop every non-overlapping occurrence,
scanning left to right (fuel-indexed; `s.length` steps always suffice since
every step consumes at least one character). -/
def strRemoveF (pat : Str) : Nat → Str → Str
  | 0, s => s
  | _ + 1, [] => []
  | fuel + 1, c :: r =>
    if pat.length ≠ 0 ∧ pat <+: (c :: r) then strRemoveF pat fuel ((c :: r).drop pat.length)
    else c :: strRemoveF pat fuel r

def strRemove (pat : Str) (s : Str) : Str := strRemoveF pat s.length s

/-- Auxiliary for `re.sub(r'\s+', ' ', ·)`: the flag records whether the
previous character was whitespace. -/
def collapseWsAux : Bool → Str → Str
  | _, [] => []
  | prevWs, c :: r =>
    if isSpaceChar c then
      if prevWs then collapseWsAux true r else ' ' :: collapseWsAux true r
    else c :: collapseWsAux false r

/-- `re.sub(r'\s+', ' ', s)`. -/
def collapseWs (s : Str) : Str := collapseWsAux false s

def usdtSuffix : Str := "USDT".toList

inductive OrderSide
  | buy
  | sell
  deriving DecidableEq

def sideValue : OrderSide → String
  | .buy => "buy"
  | .sell => "sell"

/-! ### `src/utils/helpers.py` -/

namespace Helpers

/-- Whitelist from `validate_symbol` in `helpers.py`. -/
def commonSymbols : List Str :=
  ["BTC", "ETH", "BNB", "ADA", "XRP", "SOL", "DOT", "DOGE",
   "MATIC", "AVAX", "LINK", "UNI", "LTC", "BCH", "XLM",
   "ATOM", "FTT", "NEAR", "ALGO", "VET", "ICP", "FIL",
   "TRX", "ETC", "HBAR", "APE", "SAND", "MANA", "CRO",
   "PTB", "ESPORTS"].map String.toList

/-- `re.match(r'^[A-Z0-9]{2,10}$', symbol.upper())` from `validate_symbol`. -/
def symbolShapeOk (s : Str) : Bool :=
  let u := upperStr s
  decide (2 ≤ u.length) && decide (u.length ≤ 10) &&
    u.all (fun c => ('A' ≤ c && c ≤ 'Z') || isDigitChar c)

/-- `validate_symbol` from `helpers.py`. -/
def validateSymbol (s : Str) : Bool :=
  if s.isEmpty then false
  else if ! symbolShapeOk s then false
  else commonSymbols.contains (upperStr s)

/-- `calculate_position_size` from `helpers.py`; the stop-loss argument uses
Python truthiness (`if not stop_loss_price`). -/
def calculatePositionSize (balance riskPct entry : ℚ) (slp : Option ℚ) : ℚ :=
  match slp with
  | none => balance * (riskPct / 100)
  | some sl =>
    if sl = 0 then balance * (riskPct / 100)
    else
      let riskAmount := balance * (riskPct / 100)
      let priceRisk := |entry - sl| / entry
      if priceRisk = 0 then balance * (riskPct / 100)
      else min (riskAmount / priceRisk) (balance * (1 / 2))

/-- `retry_async(max_retries, delay)`: run attempt `attempt`, with `remaining`
further attempts allowed; returns the result, the number of attempts actually
made so far in this call chain, and the backoff sleeps performed
(`delay * (attempt + 1)` after each failed non-final attempt). -/
def retryGo {E A : Type} (f : Nat → Except E A) (delay : ℚ) (attempt : Nat) :
    Nat → Except E A × Nat × List ℚ
  | 0 => (f attempt, 1, [])
  | r + 1 =>
    match f attempt with
    | .ok a => (.ok a, 1, [])
    | .error _ =>
      let (res, n, ds) := retryGo f delay (attempt + 1) r
      (res, n + 1, delay * (attempt + 1) :: ds)

/-- `retry_async` wrapper applied to a call: `max_retries` retries after the
first attempt; returns (result, total attempts made, sleeps performed). -/
def retryRun {E A : Type} (maxRetries : Nat) (delay : ℚ) (f : Nat → Except E A) :
    Except E A × Nat × List ℚ :=
  retryGo f delay 0 maxRetries

end Helpers

/-! ### `src/trading/signal_parser.py` (`SignalParser`) -/

inductive SignalType
  | market
  | limit
  | stopOrd
  | takeProfitOrd
  | firstTakeProfit
  deriving DecidableEq

/-- `TradingSignal` dataclass (raw message, parse timestamp and metadata
omitted: no claim mentions them). -/
structure TradingSignal where
  symbol : Str
  side : OrderSide
  signalType : SignalType
  amount : Option ℚ := none
  price : Option ℚ := none
  stopLoss : Option ℚ := none
  takeProfit : Option ℚ := none
  leverage : ℤ := 1
  confidence : ℚ := 8 / 10
  deriving DecidableEq

namespace SignalParser

/-- `_initialize_symbol_aliases` of `SignalParser`. -/
def symbolAliases : List (Str × Str) :=
  [("BTC", "BTCUSDT"), ("ETH", "ETHUSDT"), ("BNB", "BNBUSDT"),
   ("ADA", "ADAUSDT"), ("XRP", "XRPUSDT"), ("SOL", "SOLUSDT"),
   ("DOT", "DOTUSDT"), ("DOGE", "DOGEUSDT"), ("MATIC", "MATICUSDT"),
   ("AVAX", "AVAXUSDT"), ("LINK", "LINKUSDT"), ("UNI", "UNIUSDT"),
   ("LTC", "LTCUSDT"), ("BCH", "BCHUSDT"), ("PTB", "PTBUSDT"),
   ("ESPORTS", "ESPORTSUSDT")].map (fun p => (p.1.toList, p.2.toList))

def aliasLookup (k : Str) : List (Str × Str) → Option Str
  | [] => none
  | (k', v) :: r => if k = k' then some v else aliasLookup k r

/-- `SignalParser._normalize_symbol`. -/
def normalizeSymbol (s : Str) : Str :=
  let sym := stripStr (upperStr s)
  match aliasLookup sym symbolAliases with
  | some v => v
  | none => if usdtSuffix <:+ sym then sym else sym ++ usdtSuffix

/-- `_clean_message`: strip, collapse whitespace, blank characters outside the
allowed class, collapse and strip again. -/
def allowedCleanChar (c : Char) : Bool :=
  isWordChar c || isSpaceChar c ||
    ['#', '@', '.', '-', '+', '多', '空', '價', '价', '损', '損',
     '标', '標', '盈', '贏', '目'].contains c

def cleanMessage (s : Str) : Str :=
  stripStr (collapseWs ((collapseWs (stripStr s)).map
    (fun c => if allowedCleanChar c then c else ' ')))

/-- Position matcher for `#(\w+)\s+市[價价]([多空])`. -/
def matchBasicAt (s : Str) : Option (Str × Char) := do
  let r ← expectChar '#' s
  let (sym, r) ← scanWord r
  let r ← scanSpaces1 r
  let r ← expectChar '市' r
  let (_, r) ← expectSet ['價', '价'] r
  let (d, _) ← expectSet ['多', '空'] r
  pure (sym, d)

/-- `(?:SDT)?`, case-insensitive. -/
def scanOptSDTci (s : Str) : Str :=
  match expectLitCI "SDT".toList s with
  | some r => r
  | none => s

/-- Position matcher for
`#(\w+)\s+市[價价]([多空])\s+(\d+(?:\.\d+)?)\s*[Uu](?:SDT)?`. -/
def matchWithAmountAt (s : Str) : Option (Str × Char × ℚ) := do
  let r ← expectChar '#' s
  let (sym, r) ← scanWord r
  let r ← scanSpaces1 r
  let r ← expectChar '市' r
  let (_, r) ← expectSet ['價', '价'] r
  let (d, r) ← expectSet ['多', '空'] r
  let r ← scanSpaces1 r
  let (amt, r) ← scanNumber r
  let r := scanSpaces0 r
  let (_, _) ← expectSet ['U', 'u'] r
  pure (sym, d, amt)

/-- Position matcher for `#(\w+)\s+([多空])\s+(\d+(?:\.\d+)?)`. -/
def matchLimitAt (s : Str) : Option (Str × Char × ℚ) := do
  let r ← expectChar '#' s
  let (sym, r) ← scanWord r
  let r ← scanSpaces1 r
  let (d, r) ← expectSet ['多', '空'] r
  let r ← scanSpaces1 r
  let (p, _) ← scanNumber r
  pure (sym, d, p)

/-- Core of the lazy optional group `.*?止[损損][:：]?\s*(\d+(?:\.\d+)?)`:
match at the current position. -/
def matchSLCoreAt (s : Str) : Option (ℚ × Str) := do
  let r ← expectChar '止' s
  let (_, r) ← expectSet ['损', '損'] r
  let r := match expectSet [':', '：'] r with
    | some (_, r2) => r2
    | none => r
  let r := scanSpaces0 r
  let (n, r) ← scanNumber r
  pure (n, r)

/-- Core of the lazy optional group `.*?目[标標][:：]?\s*(\d+(?:\.\d+)?)`. -/
def matchTargetCoreAt (s : Str) : Option (ℚ × Str) := do
  let r ← expectChar '目' s
  let (_, r) ← expectSet ['标', '標'] r
  let r := match expectSet [':', '：'] r with
    | some (_, r2) => r2
    | none => r
  let r := scanSpaces0 r
  let (n, r) ← scanNumber r
  pure (n, r)

/-- Position matcher for the `full_signal` pattern.  The trailing optional
groups each contain a lazy gap `.*?`, so the stop-loss / target keyword is
searched for anywhere to the right; an absent group captures nothing. -/
def matchFullAt (s : Str) : Option (Str × Char × Option ℚ × Option ℚ × Option ℚ) := do
  let r ← expectChar '#' s
  let (sym, r) ← scanWord r
  let r ← scanSpaces1 r
  let r ← expectChar '市' r
  let (_, r) ← expectSet ['價', '价'] r
  let (d, r) ← expectSet ['多', '空'] r
  let (amt, r) :=
    match (do
      let r1 ← scanSpaces1 r
      let (a, r1) ← scanNumber r1
      let r1 := scanSpaces0 r1
      let (_, r1) ← expectSet ['U', 'u'] r1
      pure (a, scanOptSDTci r1) : Option (ℚ × Str)) with
    | some (a, r1) => (some a, r1)
    | none => (none, r)
  let (sl, r) :=
    match searchAt matchSLCoreAt r with
    | some (n, r1) => (some n, r1)
    | none => (none, r)
  let (tp, _) :=
    match searchAt matchTargetCoreAt r with
    | some (n, r1) => (some n, r1)
    | none => (none, r)
  pure (sym, d, amt, sl, tp)

/-- Position matcher for `#(\w+)\s+(long|short|buy|sell)\s*(?:@\s*(\d+(?:\.\d+)?))?`
(case-insensitive). -/
def matchEnglishAt (s : Str) : Option (Str × String × Option ℚ) := do
  let r ← expectChar '#' s
  let (sym, r) ← scanWord r
  let r ← scanSpaces1 r
  let (dir, r) ←
    (match expectLitCI "long".toList r with
     | some r1 => some ("long", r1)
     | none =>
       match expectLitCI "short".toList r with
       | some r1 => some ("short", r1)
       | none =>
         match expectLitCI "buy".toList r with
         | some r1 => some ("buy", r1)
         | none =>
           match expectLitCI "sell".toList r with
           | some r1 => some ("sell", r1)
           | none => none : Option (String × Str))
  let r := scanSpaces0 r
  let p : Option ℚ := do
    let r1 ← expectChar '@' r
    let (v, _) ← scanNumber (scanSpaces0 r1)
    pure v
  pure (sym, dir, p)

/-- Position matcher for `第一止[盈贏][:：]?\s*(\d+(?:\.\d+)?)`. -/
def matchFirstTPAt (s : Str) : Option ℚ := do
  let r ← expectChar '第' s
  let r ← expectChar '一' r
  let r ← expectChar '止' r
  let (_, r) ← expectSet ['盈', '贏'] r
  let r := match expectSet [':', '：'] r with
    | some (_, r2) => r2
    | none => r
  let (n, _) ← scanNumber (scanSpaces0 r)
  pure n

/-- `_extract_leverage`: search `(\d+)[xX倍]`, clamp into `[1, 125]`,
default 1. -/
def matchLevAt (s : Str) : Option Nat := do
  let (n, r) ← scanNat s
  let (_, _) ← expectSet ['x', 'X', '倍'] r
  pure n

def extractLeverage (msg : Str) : ℤ :=
  match searchAt matchLevAt msg with
  | some n => max 1 (min (n : ℤ) 125)
  | none => 1

def dirOf (d : Char) : OrderSide := if d = '多' then .buy else .sell

/-- `_parse_basic_market_signal` (pattern confidence 0.9). -/
def parseBasicMarket (lev : ℤ) (msg : Str) : Option TradingSignal :=
  match searchAt matchBasicAt msg with
  | none => none
  | some (sym, d) =>
    let symbol := normalizeSymbol sym
    if ! Helpers.validateSymbol (strRemove usdtSuffix symbol) then none
    else some { symbol := symbol, side := dirOf d, signalType := .market,
                leverage := lev, confidence := 9 / 10 }

/-- `_parse_market_signal_with_amount` (pattern confidence 0.95). -/
def parseWithAmount (lev : ℤ) (msg : Str) : Option TradingSignal :=
  match searchAt matchWithAmountAt msg with
  | none => none
  | some (sym, d, amt) =>
    let symbol := normalizeSymbol sym
    if ! Helpers.validateSymbol (strRemove usdtSuffix symbol) || amt ≤ 0 then none
    else some { symbol := symbol, side := dirOf d, signalType := .market,
                amount := some amt, leverage := lev, confidence := 95 / 100 }

/-- `_parse_limit_signal` (pattern confidence 0.85). -/
def parseLimit (lev : ℤ) (msg : Str) : Option TradingSignal :=
  match searchAt matchLimitAt msg with
  | none => none
  | some (sym, d, p) =>
    let symbol := normalizeSymbol sym
    if ! Helpers.validateSymbol (strRemove usdtSuffix symbol) || p ≤ 0 then none
    else some { symbol := symbol, side := dirOf d, signalType := .limit,
                price := some p, leverage := lev, confidence := 85 / 100 }

/-- `_parse_full_signal` (pattern confidence 0.98). -/
def parseFull (lev : ℤ) (msg : Str) : Option TradingSignal :=
  match searchAt matchFullAt msg with
  | none => none
  | some (sym, d, amt, sl, tp) =>
    let symbol := normalizeSymbol sym
    if ! Helpers.validateSymbol (strRemove usdtSuffix symbol) then none
    else
      let l := extractLeverage msg
      let l := if l = 1 then lev else l
      some { symbol := symbol, side := dirOf d, signalType := .market,
             amount := amt, stopLoss := sl, takeProfit := tp,
             leverage := l, confidence := 98 / 100 }

/-- `_parse_english_signal` (pattern confidence 0.8); the signal type is
`limit` only when the captured price is truthy. -/
def parseEnglish (lev : ℤ) (msg : Str) : Option TradingSignal :=
  match searchAt matchEnglishAt msg with
  | none => none
  | some (sym, dir, p) =>
    let symbol := normalizeSymbol sym
    if ! Helpers.validateSymbol (strRemove usdtSuffix symbol) then none
    else
      some { symbol := symbol,
             side := if dir = "long" || dir = "buy" then .buy else .sell,
             signalType := if truthyOpt p then .limit else .market,
             price := p, leverage := lev, confidence := 8 / 10 }

def pyIsAlphaChar (c : Char) : Bool := c.isAlpha || isCJKChar c

def strIsAlpha (s : Str) : Bool := ! s.isEmpty && s.all pyIsAlphaChar

/-- `re.findall(r'#(\w+)', u)` (fuel-indexed scan; the fuel `u.length`
always suffices because every step consumes at least one character). -/
def findAllHashF : Nat → Str → List Str
  | 0, _ => []
  | _ + 1, [] => []
  | fuel + 1, c :: r =>
    if c = '#' then
      match scanWord r with
      | some (w, rest) => w :: findAllHashF fuel rest
      | none => findAllHashF fuel r
    else findAllHashF fuel r

def findAllHash (s : Str) : List Str := findAllHashF s.length s

/-- Largest greedy split for `(\w+)USDT` at a position whose maximal word run
is `run`: the biggest `j ≥ 1` such that `USDT` follows the first `j`
characters. -/
def bestUsdtSplit (run : Str) : Option Nat :=
  (List.range run.length).reverse.find?
    (fun j => decide (1 ≤ j) && usdtSuffix.isPrefixOf (run.drop j))

/-- `re.findall(r'(\w+)USDT', u)`. -/
def findAllWUsdtF : Nat → Str → List Str
  | 0, _ => []
  | _ + 1, [] => []
  | fuel + 1, c :: r =>
    if isWordChar c then
      let run := (c :: r).takeWhile isWordChar
      match bestUsdtSplit run with
      | some j => run.take j :: findAllWUsdtF fuel ((c :: r).drop (j + 4))
      | none => findAllWUsdtF fuel r
    else findAllWUsdtF fuel r

def findAllWUsdt (s : Str) : List Str := findAllWUsdtF s.length s

def isUpperAZ (c : Char) : Bool := 'A' ≤ c && c ≤ 'Z'

/-- `re.findall(r'([A-Z]{2,10})(?:\s|$)', u)`. -/
def findAllCapsF : Nat → Str → List Str
  | 0, _ => []
  | _ + 1, [] => []
  | fuel + 1, c :: r =>
    if isUpperAZ c then
      let run := (c :: r).takeWhile isUpperAZ
      let rest := (c :: r).drop run.length
      if decide (2 ≤ run.length) && decide (run.length ≤ 10) then
        match rest with
        | [] => [run]
        | d :: r2 => if isSpaceChar d then run :: findAllCapsF fuel r2
                     else findAllCapsF fuel r
      else findAllCapsF fuel r
    else findAllCapsF fuel r

def findAllCaps (s : Str) : List Str := findAllCapsF s.length s

/-- `_infer_symbol_from_message`: try the three symbol patterns in order on
the uppercased message, return the first alphabetic 2-10 character match,
suffixed with `USDT` when absent. -/
def inferSymbolFromMessage (msg : Str) : Option Str :=
  let u := upperStr msg
  let cands := findAllHash u ++ findAllWUsdt u ++ findAllCaps u
  match cands.find?
      (fun m => decide (2 ≤ m.length) && decide (m.length ≤ 10) && strIsAlpha m) with
  | none => none
  | some m => if usdtSuffix <:+ m then some m else some (m ++ usdtSuffix)

/-- `_parse_first_take_profit_signal` (pattern confidence 0.95). -/
def parseFirstTP (msg : Str) : Option TradingSignal :=
  match searchAt matchFirstTPAt msg with
  | none => none
  | some n =>
    if n ≤ 0 then none
    else
      some { symbol := (inferSymbolFromMessage msg).getD [],
             side := .buy, signalType := .firstTakeProfit,
             takeProfit := some n, confidence := 95 / 100 }

structure OldPattern where
  name : String
  confidence : ℚ
  run : Str → Option TradingSignal

/-- `_initialize_patterns` of `SignalParser`, in its source declaration
order, paired with each pattern's `_parse_*` handler. -/
def signalPatterns (lev : ℤ) : List OldPattern :=
  [⟨"basic_market_signal", 9 / 10, parseBasicMarket lev⟩,
   ⟨"market_signal_with_amount", 95 / 100, parseWithAmount lev⟩,
   ⟨"limit_signal", 85 / 100, parseLimit lev⟩,
   ⟨"full_signal", 98 / 100, parseFull lev⟩,
   ⟨"english_signal", 8 / 10, parseEnglish lev⟩,
   ⟨"first_take_profit", 95 / 100, parseFirstTP⟩]

/-- `SignalParser.parse_signal`: clean the message, then try the patterns in
list order; the first pattern whose handler produces a signal wins. -/
def parseSignal (lev : ℤ) (msg : Str) : Option TradingSignal :=
  let clean := cleanMessage msg
  (signalPatterns lev).findSome? (fun p => p.run clean)

/-- `SignalParser.validate_signal`: returns (is-valid, error list), errors
collected in source order.  Optional price fields use Python truthiness. -/
def validateSignal (sig : TradingSignal) : Bool × List String :=
  let e1 : List String :=
    if sig.symbol.isEmpty then
      if sig.signalType ≠ .firstTakeProfit then ["缺少交易对符号"] else []
    else if ! Helpers.validateSymbol (strRemove usdtSuffix sig.symbol) then
      [String.mk ("无效的交易对符号: ".toList ++ sig.symbol)]
    else []
  let e2 : List String :=
    if sig.signalType = .limit ∧ ! truthyOpt sig.price then ["限价单缺少价格信息"] else []
  let e3 : List String :=
    if truthyOpt sig.price ∧ sig.price.getD 0 ≤ 0 then ["价格必须大于0"] else []
  let e4 : List String :=
    if truthyOpt sig.amount ∧ sig.amount.getD 0 ≤ 0 then ["交易金额必须大于0"] else []
  let e5 : List String :=
    if truthyOpt sig.stopLoss ∧ truthyOpt sig.takeProfit then
      if sig.side = .buy then
        if sig.stopLoss.getD 0 ≥ sig.takeProfit.getD 0 then ["做多时止损价格应低于止盈价格"] else []
      else
        if sig.stopLoss.getD 0 ≤ sig.takeProfit.getD 0 then ["做空时止损价格应高于止盈价格"] else []
    else []
  let e6 : List String :=
    if sig.leverage < 1 ∨ sig.leverage > 125 then ["杠杆倍数应在1-125之间"] else []
  let e7 : List String :=
    if ¬ (0 ≤ sig.confidence ∧ sig.confidence ≤ 1) then ["置信度应在0-1之间"] else []
  let errors := e1 ++ e2 ++ e3 ++ e4 ++ e5 ++ e6 ++ e7
  (errors.isEmpty, errors)

end SignalParser

/-! ### `src/trading/optimized_signal_parser.py` (`OptimizedSignalParser`) -/

inductive OSignalType
  | market
  | limit
  | stopOrd
  | takeProfitOrd
  deriving DecidableEq

/-- `TradingSignal` dataclass of the optimized parser (raw message, parse
timestamp and metadata omitted). -/
structure OTradingSignal where
  symbol : Str
  side : OrderSide
  signalType : OSignalType
  amount : Option ℚ := none
  price : Option ℚ := none
  stopLoss : Option ℚ := none
  takeProfit : Option ℚ := none
  takeProfitLevels : List ℚ := []
  leverage : ℤ := 1
  confidence : ℚ := 8 / 10
  patternName : String := ""
  deriving DecidableEq

namespace OptimizedSignalParser

/-- `_initialize_symbol_aliases` of `OptimizedSignalParser`. -/
def symbolAliases : List (Str × Str) :=
  (["BTC", "ETH", "BNB", "ADA", "XRP", "SOL", "DOGE", "MATIC", "AVAX",
    "WLFI", "TREE", "TA", "BAKE",
    "LINK", "UNI", "DOT", "ATOM", "FTM", "ALGO", "NEAR", "SAND", "MANA",
    "CRV", "COMP", "SUSHI", "YFI", "AAVE", "MKR", "SNX", "1INCH", "BAT",
    "ENJ", "ZRX", "OMG", "LRC", "KNC", "REN", "STORJ", "GRT", "NKN",
    "OGN", "NMR", "RSR", "FET", "CTSI", "HBAR", "ONE", "FTT", "HOT",
    "WIN", "BTT", "CHZ", "VET", "THETA", "TFUEL", "RUNE"].map
    (fun b => (b.toList, (b ++ "USDT").toList)))

/-- `OptimizedSignalParser._normalize_symbol`. -/
def normalizeSymbol (s : Str) : Str :=
  let sym := stripStr (upperStr s)
  match SignalParser.aliasLookup sym symbolAliases with
  | some v => v
  | none => if usdtSuffix <:+ sym then sym else sym ++ usdtSuffix

/-- Numerals accepted by `第([一二三四五六七八九十])`. -/
def chineseNumerals : List Char :=
  ['一', '二', '三', '四', '五', '六', '七', '八', '九', '十']

/-- `chinese_numbers.get(c, 1)`. -/
def chineseNum (c : Char) : Nat :=
  match chineseNumerals.indexOf? c with
  | some i => i + 1
  | none => 1

/-- Position matcher for `第([一二三四五六七八九十])止[盈贏]:\s*(\d+(?:\.\d+)?)`
(the colon here is the ASCII colon, exactly as in the source pattern). -/
def matchTPAt (s : Str) : Option (Char × ℚ × Str) := do
  let r ← expectChar '第' s
  let (lv, r) ← expectSet chineseNumerals r
  let r ← expectChar '止' r
  let (_, r) ← expectSet ['盈', '贏'] r
  let r ← expectChar ':' r
  let (n, r) ← scanNumber (scanSpaces0 r)
  pure (lv, n, r)

/-- Position matcher for `止[损損]:\s*(\d+(?:\.\d+)?)`. -/
def matchSLColonAt (s : Str) : Option (ℚ × Str) := do
  let r ← expectChar '止' s
  let (_, r) ← expectSet ['损', '損'] r
  let r ← expectChar ':' r
  let (n, r) ← scanNumber (scanSpaces0 r)
  pure (n, r)

/-- Greedy repetition count for `(?:第(...)止[盈贏]:\s*(\d+...)[\s\n]*){2,}`
at a position. -/
def countTPRepsF : Nat → Str → Nat
  | 0, _ => 0
  | fuel + 1, s =>
    match matchTPAt s with
    | some (_, _, r) => 1 + countTPRepsF fuel (scanSpaces0 r)
    | none => 0

def matchMultiTPAt (s : Str) : Option Unit :=
  if 2 ≤ countTPRepsF s.length s then some () else none

/-- Position matcher for the `complete_signal` pattern
`#(\w+)\s+市[價价]([多空]).*?(?:第(...)止[盈贏]:\s*(num))?.*?(?:止[损損]:\s*(num))?`.
Both lazy gaps `.*?` stay empty: the optional groups that follow them can
always match the empty string, so the pattern as a whole succeeds without
ever expanding the gaps, and each optional group is therefore only tried at
the current position. -/
def matchCompleteAt (s : Str) : Option (Str × Char × Option (Char × ℚ) × Option ℚ) := do
  let r ← expectChar '#' s
  let (sym, r) ← scanWord r
  let r ← scanSpaces1 r
  let r ← expectChar '市' r
  let (_, r) ← expectSet ['價', '价'] r
  let (d, r) ← expectSet ['多', '空'] r
  let (tp, r) :=
    match matchTPAt r with
    | some (lv, n, r1) => (some (lv, n), r1)
    | none => (none, r)
  let (sl, _) :=
    match matchSLColonAt r with
    | some (n, r1) => (some n, r1)
    | none => (none, r)
  pure (sym, d, tp, sl)

/-- `re.findall` of the take-profit pattern over the whole message
(non-overlapping, resuming after each match). -/
def findAllTPF : Nat → Str → List (Char × ℚ)
  | 0, _ => []
  | _ + 1, [] => []
  | fuel + 1, c :: r =>
    match matchTPAt (c :: r) with
    | some (lv, n, rest) => (lv, n) :: findAllTPF fuel rest
    | none => findAllTPF fuel r

def findAllTP (s : Str) : List (Char × ℚ) := findAllTPF s.length s

/-- Collected (level, price) pairs with the source's `if price:` truthiness
filter. -/
def tpLevelsOf (s : Str) : List (Nat × ℚ) :=
  (findAllTP s).filterMap (fun p => if p.2 ≠ 0 then some (chineseNum p.1, p.2) else none)

/-- Stable insertion of a later element after all existing elements with a
key not larger than its own (Python's stable `list.sort(key=level)`). -/
def insertByLevel (x : Nat × ℚ) : List (Nat × ℚ) → List (Nat × ℚ)
  | [] => [x]
  | y :: r => if x.1 < y.1 then x :: y :: r else y :: insertByLevel x r

def sortByLevel (l : List (Nat × ℚ)) : List (Nat × ℚ) :=
  l.foldl (fun acc x => insertByLevel x acc) []

/-- `_parse_basic_market_signal` (confidence 0.9). -/
def oParseBasic (lev : ℤ) (amt : ℚ) (msg : Str) : Option OTradingSignal :=
  match searchAt SignalParser.matchBasicAt msg with
  | none => none
  | some (sym, d) =>
    some { symbol := normalizeSymbol sym, side := SignalParser.dirOf d,
           signalType := .market, leverage := lev, amount := some amt,
           confidence := 9 / 10 }

/-- `_parse_take_profit_signal`: the handler always returns `None` (such a
message only contributes in multi-message parsing). -/
def oParseSingleTP (msg : Str) : Option OTradingSignal :=
  (searchAt matchTPAt msg).bind (fun _ => none)

/-- `_parse_stop_loss_signal`: the handler always returns `None`. -/
def oParseStopLoss (msg : Str) : Option OTradingSignal :=
  (searchAt matchSLColonAt msg).bind (fun _ => none)

/-- `_parse_multi_take_profit`: the handler always returns `None`. -/
def oParseMultiTP (msg : Str) : Option OTradingSignal :=
  (searchAt matchMultiTPAt msg).bind (fun _ => none)

/-- `_parse_complete_signal` (confidence 0.95).  Group 4 / group 5 are the
optional take-profit / stop-loss captures of the regex; the multi-level
take-profit list additionally comes from a `findall` over the whole
message. -/
def oParseComplete (lev : ℤ) (amt : ℚ) (msg : Str) : Option OTradingSignal :=
  match searchAt matchCompleteAt msg with
  | none => none
  | some (sym, d, tpg, slg) =>
    let tp0 : Option ℚ := tpg.map (·.2)
    let sl0 : Option ℚ := slg
    let sorted := sortByLevel (tpLevelsOf msg)
    let tpl : List ℚ := if sorted.isEmpty then [] else sorted.map (·.2)
    let tp1 : Option ℚ :=
      if ! truthyOpt tp0 ∧ ! sorted.isEmpty then some ((sorted.headD (0, 0)).2) else tp0
    some { symbol := normalizeSymbol sym,
           side := if d = '多' then .buy else .sell,
           signalType := .market, leverage := lev, amount := some amt,
           stopLoss := sl0, takeProfit := tp1, takeProfitLevels := tpl,
           confidence := 95 / 100 }

/-- `_parse_market_with_amount` (confidence 0.93). -/
def oParseMarketWithAmount (lev : ℤ) (msg : Str) : Option OTradingSignal :=
  match searchAt SignalParser.matchWithAmountAt msg with
  | none => none
  | some (sym, d, amt) =>
    some { symbol := normalizeSymbol sym,
           side := if d = '多' then .buy else .sell,
           signalType := .market, amount := some amt,
           leverage := lev, confidence := 93 / 100 }

structure OPattern where
  name : String
  confidence : ℚ
  run : Str → Option OTradingSignal

/-- `_initialize_patterns` of `OptimizedSignalParser`, in source order. -/
def oPatterns (lev : ℤ) (amt : ℚ) : List OPattern :=
  [⟨"basic_market_signal", 9 / 10, oParseBasic lev amt⟩,
   ⟨"single_take_profit", 88 / 100, oParseSingleTP⟩,
   ⟨"stop_loss_signal", 88 / 100, oParseStopLoss⟩,
   ⟨"multi_take_profit", 92 / 100, oParseMultiTP⟩,
   ⟨"complete_signal", 95 / 100, oParseComplete lev amt⟩,
   ⟨"market_with_amount", 93 / 100, oParseMarketWithAmount lev⟩]

/-- Stable insertion used to model Python's stable
`sorted(..., key=confidence, reverse=True)`: a later pattern is inserted
after every earlier pattern with confidence not below its own. -/
def insertByConfDesc (x : OPattern) : List OPattern → List OPattern
  | [] => [x]
  | y :: r => if y.confidence < x.confidence then x :: y :: r else y :: insertByConfDesc x r

def sortByConfDesc (l : List OPattern) : List OPattern :=
  l.foldl (fun acc x => insertByConfDesc x acc) []

def sortedPatterns (lev : ℤ) (amt : ℚ) : List OPattern :=
  sortByConfDesc (oPatterns lev amt)

/-- `OptimizedSignalParser.parse_signal`: strip the message, then try the
patterns in descending confidence order; the first pattern whose handler
produces a signal wins and stamps its pattern name. -/
def parseSignal (lev : ℤ) (amt : ℚ) (msg : Str) : Option OTradingSignal :=
  let m := stripStr msg
  if m.isEmpty then none
  else (sortedPatterns lev amt).findSome?
    (fun p => (p.run m).map (fun s => { s with patternName := p.name }))

/-- `'\n'.join(messages)`. -/
def joinNL : List Str → Str
  | [] => []
  | [m] => m
  | m :: r => m ++ '\n' :: joinNL r

/-- Accumulator state of `parse_multi_message_signal`'s message loop. -/
structure MultiAcc where
  base : Option (Str × Char)
  tps : List (Nat × ℚ)
  sl : Option ℚ

/-- One iteration of the message loop of `parse_multi_message_signal`. -/
def multiStep (acc : MultiAcc) (msg : Str) : MultiAcc :=
  let base :=
    match acc.base with
    | some b => some b
    | none => searchAt SignalParser.matchBasicAt msg
  let tps := acc.tps ++ tpLevelsOf msg
  let sl :=
    match searchAt matchSLColonAt msg with
    | some (n, _) => if ! truthyOpt acc.sl then some n else acc.sl
    | none => acc.sl
  ⟨base, tps, sl⟩

/-- `OptimizedSignalParser.parse_multi_message_signal`. -/
def parseMultiMessage (lev : ℤ) (amt : ℚ) (msgs : List Str) : Option OTradingSignal :=
  if msgs.isEmpty then none
  else
    let acc := msgs.foldl multiStep ⟨none, [], none⟩
    match acc.base with
    | none => none
    | some (sym, d) =>
      let sorted := sortByLevel acc.tps
      let tp : Option ℚ := if ! sorted.isEmpty then some ((sorted.headD (0, 0)).2) else none
      let tpl : List ℚ := if ! sorted.isEmpty then sorted.map (·.2) else []
      let sl : Option ℚ :=
        match acc.sl with
        | some v => if v ≠ 0 then some v else none
        | none => none
      let conf : ℚ :=
        if ¬ acc.tps.isEmpty ∧ truthyOpt acc.sl then 98 / 100
        else if ¬ acc.tps.isEmpty ∨ truthyOpt acc.sl then 95 / 100
        else 9 / 10
      some { symbol := normalizeSymbol sym,
             side := if d = '多' then .buy else .sell,
             signalType := .market, leverage := lev, amount := some amt,
             stopLoss := sl, takeProfit := tp, takeProfitLevels := tpl,
             confidence := conf, patternName := "multi_message_signal" }

/-- `signal.x is not None and signal.x <= 0` from `validate_signal`. -/
def nonPosOpt (x : Option ℚ) : Bool :=
  match x with
  | some v => decide (v ≤ 0)
  | none => false

/-- `OptimizedSignalParser.validate_signal`. -/
def validateSignal (sig : OTradingSignal) : Bool :=
  if sig.symbol.isEmpty then false
  else if nonPosOpt sig.price then false
  else if nonPosOpt sig.stopLoss then false
  else if nonPosOpt sig.takeProfit then false
  else if sig.leverage ≤ 0 ∨ sig.leverage > 125 then false
  else if truthyOpt sig.stopLoss ∧ truthyOpt sig.takeProfit then
    if sig.side = .buy then
      if sig.takeProfit.getD 0 ≤ sig.stopLoss.getD 0 then false else true
    else
      if sig.takeProfit.getD 0 ≥ sig.stopLoss.getD 0 then false else true
  else true

end OptimizedSignalParser

/-! ### `src/trading/bitget_client.py` (`BitgetClient`) -/

namespace BitgetClient

/-- Outcome of one HTTP exchange round-trip, as classified by
`_make_request`. -/
inductive ApiOutcome
  | netError (msg : String)
  | httpError (status : Nat) (body : String)
  | badJson (body : String)
  | apiError (code : String) (msg : String)
  | ok (data : String)
  deriving DecidableEq

/-- `BitgetAPIError(message, code)`. -/
structure BitgetErr where
  msg : String
  code : Option String
  deriving DecidableEq

/-- The body of `_make_request` for a single attempt: HTTP failures, invalid
JSON and non-`'00000'` API status codes all raise `BitgetAPIError`; the API
error carries the exchange's code and message. -/
def makeRequestOnce : ApiOutcome → Except BitgetErr String
  | .netError m => .error ⟨"网络请求失败: " ++ m, none⟩
  | .httpError status body => .error ⟨"HTTP " ++ toString status ++ ": " ++ body, some (toString status)⟩
  | .badJson body => .error ⟨"无效的JSON响应: " ++ body, none⟩
  | .apiError code m => .error ⟨m, some code⟩
  | .ok data => .ok data

/-- `_make_request` as deployed: wrapped in `@retry_async(max_retries=3,
delay=1.0)`, with the response of attempt `i` given by the oracle. -/
def makeRequest (responses : Nat → ApiOutcome) : Except BitgetErr String × Nat × List ℚ :=
  Helpers.retryRun 3 1 (fun i => makeRequestOnce (responses i))

/-- Contract sizing of `execute_signal`:
`contract_size = margin_amount / (current_price / leverage)`. -/
def contractSize (margin price leverage : ℚ) : ℚ := margin / (price / leverage)

/-- `margin_amount = signal.amount or default`, then capped to the balance
(`if margin_amount > balance: margin_amount = balance`). -/
def executeMargin (amount : Option ℚ) (dflt balance : ℚ) : ℚ :=
  let m := match amount with
    | some a => if a ≠ 0 then a else dflt
    | none => dflt
  if m > balance then balance else m

/-- The contract size `execute_signal` computes from the signal amount,
configured default, balance, market price and leverage. -/
def executeContractSize (amount : Option ℚ) (dflt balance price leverage : ℚ) : ℚ :=
  contractSize (executeMargin amount dflt balance) price leverage

/-- `close_position_partial`: the position size is read from `total`, falling
back to `size` when `total` is non-positive. -/
def positionCurrentSize (total size : ℚ) : ℚ := if total ≤ 0 then size else total

/-- `close_position_partial`: `close_size = round(current_size *
(percentage / 100), 8)`. -/
def closePartialSize (currentSize percentage : ℚ) : ℚ :=
  pyRound 8 (currentSize * (percentage / 100))

/-- Stop price computed inside `execute_signal` for the automatic fixed-loss
stop: `price_diff = loss_amount / (filled_quantity / leverage)`, subtracted
for a long (buy) entry and added for a short (sell) entry, then rounded to 4
decimal places. -/
def autoStopLossPrice (lossAmount fillPrice fillQty leverage : ℚ) (side : OrderSide) : ℚ :=
  let priceDiff := lossAmount / (fillQty / leverage)
  pyRound 4 (if side = .buy then fillPrice - priceDiff else fillPrice + priceDiff)

/-- `set_auto_stop_loss` rounds the received stop price again before putting
it into the plan order's `triggerPrice`. -/
def autoStopTriggerPrice (stopPrice : ℚ) : ℚ := pyRound 4 stopPrice

/-- The fixed target loss amount of the automatic stop (`loss_amount = 7.0`). -/
def lossAmountConst : ℚ := 7

/-- Exchange calls `execute_signal` can issue. -/
inductive ExecAction
  | placeOpenOrder
  | placeCloseLimitOrder
  | placePlanOrder
  | cancelOrder
  deriving DecidableEq

structure OrderInfo where
  orderId : String
  deriving DecidableEq

/-- Environment oracle for a run of `execute_signal`: the results the
exchange returns to each call the method makes. -/
structure ExecEnv where
  balance : ℚ
  symbolValid : Bool
  currentPrice : Option ℚ
  placeOrderResult : Except String (Option OrderInfo)
  orderStatusFilled : Option (ℚ × ℚ)
  slOrderResult : Except String (Option OrderInfo)
  tpOrderResult : Except String (Option OrderInfo)
  planOrderResult : Option OrderInfo

structure ExecConfig where
  defaultTradeAmount : ℚ := 2
  defaultLeverage : ℤ := 20
  useTraderSignalsForTpSl : Bool := true

/-- Result dictionary of `execute_signal` (the fields the claims read),
plus the trace of exchange calls issued. -/
structure ExecResult where
  success : Bool
  error : Option String := none
  order : Option OrderInfo := none
  stopLossOrder : Option OrderInfo := none
  takeProfitOrder : Option OrderInfo := none
  autoStopLossOrder : Option OrderInfo := none
  marginAmount : Option ℚ := none
  size : Option ℚ := none
  actions : List ExecAction := []
  deriving DecidableEq

/-- `BitgetClient.execute_signal`.  Control flow of the source: balance and
symbol checks, margin and contract-size computation, market/limit order
placement, the optional trader-signal stop-loss/take-profit block, then the
automatic fixed-loss stop block.  Failures of the automatic stop are caught
(`set_auto_stop_loss` returns `None` and the outer block swallows
exceptions), so they never abort the result; any exception before the order
is placed yields the `success: False` error dictionary. -/
def executeSignal (cfg : ExecConfig) (env : ExecEnv) (sig : TradingSignal) : ExecResult :=
  if env.balance ≤ 0 then { success := false, error := some "账户余额不足" }
  else if ! env.symbolValid then { success := false, error := some "无效的交易对" }
  else
    let margin := executeMargin sig.amount cfg.defaultTradeAmount env.balance
    let lev : ℤ := if sig.leverage ≠ 0 then sig.leverage else cfg.defaultLeverage
    match env.currentPrice with
    | none => { success := false, error := some "无法获取当前价格" }
    | some p =>
      if p ≤ 0 then { success := false, error := some "无法获取当前价格" }
      else
        let size := contractSize margin p (lev : ℚ)
        if sig.signalType = .market ∨ (sig.signalType = .limit ∧ truthyOpt sig.price) then
          match env.placeOrderResult with
          | .error e => { success := false, error := some e, actions := [.placeOpenOrder] }
          | .ok orderResult =>
            let tpslBlock :=
              cfg.useTraderSignalsForTpSl ∧ (truthyOpt sig.stopLoss ∨ truthyOpt sig.takeProfit)
            let (slOrder, tpOrder, acts1) :=
              if tpslBlock then
                match orderResult with
                | none => (none, none, ([] : List ExecAction))
                | some _ =>
                  match env.orderStatusFilled with
                  | none => (none, none, [])
                  | some (fp, _) =>
                    let (slo, a1) :=
                      if truthyOpt sig.stopLoss ∧ 0 < fp then
                        (match env.slOrderResult with
                         | .ok o => (o, [ExecAction.placeCloseLimitOrder])
                         | .error _ => (none, [ExecAction.placeCloseLimitOrder]))
                      else (none, [])
                    let (tpo, a2) :=
                      if truthyOpt sig.takeProfit ∧ 0 < fp then
                        (match env.tpOrderResult with
                         | .ok o => (o, [ExecAction.placeCloseLimitOrder])
                         | .error _ => (none, [ExecAction.placeCloseLimitOrder]))
                      else (none, [])
                    (slo, tpo, a1 ++ a2)
              else (none, none, [])
            let (autoOrder, acts2) :=
              match orderResult with
              | none => (none, ([] : List ExecAction))
              | some _ =>
                match env.orderStatusFilled with
                | none => (none, [])
                | some (fp, fq) =>
                  if 0 < fp ∧ 0 < fq then
                    (env.planOrderResult, [ExecAction.placePlanOrder])
                  else (none, [])
            { success := true, order := orderResult,
              stopLossOrder := slOrder, takeProfitOrder := tpOrder,
              autoStopLossOrder := autoOrder,
              marginAmount := some margin, size := some size,
              actions := [ExecAction.placeOpenOrder] ++ acts1 ++ acts2 }
        else { success := false, error := some "不支持的信号类型或缺少必要参数" }

end BitgetClient

/-! ### `src/trading/risk_manager.py` (`RiskManager`) -/

namespace RiskManager

/-- `PositionInfo` dataclass (creation time omitted). -/
structure PositionInfo where
  symbol : Str
  side : String
  size : ℚ
  entryPrice : ℚ
  currentPrice : ℚ
  pnl : ℚ
  pnlPercentage : ℚ
  stopLoss : Option ℚ := none
  takeProfit : Option ℚ := none
  deriving DecidableEq

/-- Configuration-derived limits fixed in `__init__`. -/
structure RMConfig where
  maxDailyLoss : ℚ
  maxPositionSize : ℚ
  riskPercentage : ℚ
  maxTradesPerDay : Nat := 50
  maxConsecutiveLosses : Nat := 5
  cooldownSeconds : ℚ := 1800

/-- The mutable risk state (`daily_pnl`, `trade_count_today`,
`consecutive_losses`, `last_reset_date`, `positions`, `trade_history`,
`last_trade_time`).  The trade history keeps the recorded P&L values, which
is all the gate computations read from it. -/
structure RiskState where
  dailyPnl : ℚ
  tradeCountToday : Nat
  consecutiveLosses : Nat
  lastResetDate : ℤ
  positions : List PositionInfo
  tradeHistory : List ℚ
  lastTradeTime : Option ℚ
  deriving DecidableEq

inductive RiskReason
  | approved
  | insufficientBalance
  | dailyTradeCap (cap : Nat)
  | dailyLossLimit (maxLoss : ℚ)
  | consecutiveLossCap (n : Nat)
  | cooldown
  | amountTooLarge (maxSize : ℚ)
  | samePosition (symbol : Str)
  | criticalRisk
  deriving DecidableEq

inductive RiskLevel
  | low
  | medium
  | high
  | critical
  deriving DecidableEq

/-- `_reset_daily_counters`. -/
def resetDaily (st : RiskState) (nowDate : ℤ) : RiskState :=
  if nowDate ≠ st.lastResetDate then
    { st with dailyPnl := 0, tradeCountToday := 0, lastResetDate := nowDate }
  else st

/-- `_in_cooldown`. -/
def inCooldown (cfg : RMConfig) (st : RiskState) (nowTime : ℚ) : Bool :=
  match st.lastTradeTime with
  | none => false
  | some t => nowTime - t < cfg.cooldownSeconds

/-- `_calculate_suggested_amount`. -/
def suggestedOfSignal (cfg : RMConfig) (balance : ℚ) (sig : TradingSignal) : ℚ :=
  let riskAmount := balance * (cfg.riskPercentage / 100)
  if truthyOpt sig.stopLoss ∧ truthyOpt sig.price then
    min (Helpers.calculatePositionSize balance cfg.riskPercentage (sig.price.getD 0) sig.stopLoss)
      riskAmount
  else riskAmount

/-- `suggested_amount = signal.amount or self._calculate_suggested_amount(...)`. -/
def suggestedAmount (cfg : RMConfig) (balance : ℚ) (sig : TradingSignal) : ℚ :=
  match sig.amount with
  | some a => if a ≠ 0 then a else suggestedOfSignal cfg balance sig
  | none => suggestedOfSignal cfg balance sig

def totalPnl (st : RiskState) : ℚ := (st.positions.map (·.pnl)).sum

def usedMargin (st : RiskState) : ℚ := (st.positions.map (·.size)).sum

/-- `_calculate_max_drawdown`. -/
def maxDrawdown (hist : List ℚ) : ℚ :=
  (hist.foldl
    (fun (acc : ℚ × ℚ × ℚ) pnl =>
      let cum := acc.1 + pnl
      let peak := if cum > acc.2.1 then cum else acc.2.1
      let dd := peak - cum
      (cum, peak, if dd > acc.2.2 then dd else acc.2.2))
    (0, 0, 0)).2.2

/-- `_determine_risk_level`. -/
def determineRiskLevel (balance totalPnlV usedMarginV : ℚ) (consecLosses : Nat) : RiskLevel :=
  let marginRate := if balance > 0 then usedMarginV / balance else 0
  let pnlRate := if balance > 0 then |totalPnlV| / balance else 0
  if marginRate > 8 / 10 ∨ pnlRate > 2 / 10 ∨ consecLosses ≥ 4 then .critical
  else if marginRate > 6 / 10 ∨ pnlRate > 15 / 100 ∨ consecLosses ≥ 3 then .high
  else if marginRate > 4 / 10 ∨ pnlRate > 1 / 10 ∨ consecLosses ≥ 2 then .medium
  else .low

/-- `RiskManager.check_signal_risk`: the daily-counter reset followed by the
ordered, short-circuiting gates; the method returns the verdict and (the
reset being the only mutation) the state it leaves behind. -/
def checkSignalRisk (cfg : RMConfig) (st0 : RiskState) (nowDate : ℤ) (nowTime : ℚ)
    (sig : TradingSignal) (balance : ℚ) : (Bool × RiskReason) × RiskState :=
  let st := resetDaily st0 nowDate
  if balance ≤ 0 then ((false, .insufficientBalance), st)
  else if st.tradeCountToday ≥ cfg.maxTradesPerDay then
    ((false, .dailyTradeCap cfg.maxTradesPerDay), st)
  else if st.dailyPnl < -cfg.maxDailyLoss then
    ((false, .dailyLossLimit cfg.maxDailyLoss), st)
  else if st.consecutiveLosses ≥ cfg.maxConsecutiveLosses then
    ((false, .consecutiveLossCap st.consecutiveLosses), st)
  else if inCooldown cfg st nowTime then ((false, .cooldown), st)
  else if suggestedAmount cfg balance sig > cfg.maxPositionSize then
    ((false, .amountTooLarge cfg.maxPositionSize), st)
  else if (st.positions.find? (fun p => p.symbol = sig.symbol)).any
      (fun p => p.side = sideValue sig.side) then
    ((false, .samePosition sig.symbol), st)
  else if determineRiskLevel balance (totalPnl st) (usedMargin st) st.consecutiveLosses
      = .critical then
    ((false, .criticalRisk), st)
  else ((true, .approved), st)

end RiskManager

/-! ### `gui_trading_bot.py` (`price_monitor_loop`) -/

namespace PriceMonitor

/-- The side-aware take-profit comparison of `price_monitor_loop`
(`side == 'long' and current_price >= target_price`, `side == 'short' and
current_price <= target_price`); the side string comes from the exchange's
`holdSide` field. -/
def shouldExecuteTP (side : String) (currentPrice targetPrice : ℚ) : Bool :=
  if side = "long" ∧ currentPrice ≥ targetPrice then true
  else if side = "short" ∧ currentPrice ≤ targetPrice then true
  else false

/-- The per-target decision of one monitor cycle: an already-executed target
is skipped, a failed price fetch (`None`) skips the target for this cycle,
otherwise the side-aware comparison decides. -/
def monitorTargetStep (executed : Bool) (fetchedPrice : Option ℚ)
    (side : String) (target : ℚ) : Bool :=
  if executed then false
  else
    match fetchedPrice with
    | none => false
    | some p => shouldExecuteTP side p target

end PriceMonitor

/-! ### Scenario constants and a shared view of the two normalizers -/

/-- Common shape of `_normalize_symbol` in both parsers (they differ only in
the alias table); both `SignalParser.normalizeSymbol` and
`OptimizedSignalParser.normalizeSymbol` are definitionally instances of it. -/
def normalizeWith (table : List (Str × Str)) (s : Str) : Str :=
  let sym := stripStr (upperStr s)
  match SignalParser.aliasLookup sym table with
  | some v => v
  | none => if usdtSuffix <:+ sym then sym else sym ++ usdtSuffix

/-- Classifier for the request outcomes that `_make_request` raises on. -/
def isApiFailure : BitgetClient.ApiOutcome → Bool
  | .ok _ => false
  | _ => true

/-- The three-message TREE scenario of the specification. -/
def treeMessages : List Str :=
  ["#TREE 市價空".toList, "第一止盈: 0.367".toList, "止损: 0.398".toList]

/-- The signal `parse_multi_message_signal` produces on `treeMessages`. -/
def sigTreeMulti : OTradingSignal :=
  { symbol := "TREEUSDT".toList, side := .sell, signalType := .market,
    amount := some 2, stopLoss := some (398 / 1000), takeProfit := some (367 / 1000),
    takeProfitLevels := [367 / 1000], leverage := 20, confidence := 98 / 100,
    patternName := "multi_message_signal" }

/-- The signal `parse_signal` produces on the single combined TREE message:
the `complete_signal` regex's optional stop-loss group never captures, so the
combined parse carries no stop-loss. -/
def sigTreeCombined : OTradingSignal :=
  { symbol := "TREEUSDT".toList, side := .sell, signalType := .market,
    amount := some 2, stopLoss := none, takeProfit := some (367 / 1000),
    takeProfitLevels := [367 / 1000], leverage := 20, confidence := 95 / 100,
    patternName := "complete_signal" }

/-- Input of the pattern-order counterexample for the old parser. -/
def mixedMsg : Str := "#BTC 市價多 100U".toList

/-- What `SignalParser.parse_signal` returns on `mixedMsg`: the first listed
pattern (`basic_market_signal`, confidence 0.9) wins and drops the amount. -/
def sigBtcBasic : TradingSignal :=
  { symbol := "BTCUSDT".toList, side := .buy, signalType := .market,
    leverage := 20, confidence := 9 / 10 }

/-- A filled-order environment in which the protective-stop placement fails
after all retries (`set_auto_stop_loss` returns `None`). -/
def envStopFails : BitgetClient.ExecEnv :=
  { balance := 50, symbolValid := true, currentPrice := some 100,
    placeOrderResult := .ok (some ⟨"ORD1"⟩), orderStatusFilled := some (100, 1 / 2),
    slOrderResult := .ok none, tpOrderResult := .ok none, planOrderResult := none }

/-- A market signal with no trader-provided stops, for the C4 scenario. -/
def sigPlainMarket : TradingSignal :=
  { symbol := "BTCUSDT".toList, side := .buy, signalType := .market,
    amount := some 5, leverage := 10, confidence := 9 / 10 }

/-! ## Theorems

General helper lemmas, then one theorem per claim (with witnesses or
counterexamples where the rules require them). -/

theorem charOfNat_toNat (n : Nat) (h : n.isValidChar) : (Char.ofNat n).toNat = n := by
  unfold Char.ofNat
  rw [dif_pos h]
  unfold Char.ofNatAux Char.toNat
  simp [UInt32.toNat]

theorem charEqIffToNat (a b : Char) : a = b ↔ a.toNat = b.toNat := by
  constructor
  · intro h
    rw [h]
  · intro h
    apply Char.eq_of_val_eq
    apply UInt32.toNat.inj
    exact h

theorem isSpaceChar_false_of_ge (x : Char) (h : 33 ≤ x.toNat) : isSpaceChar x = false := by
  simp only [isSpaceChar, Bool.or_eq_false_iff, decide_eq_false_iff_not, charEqIffToNat]
  have h1 : Char.toNat ' ' = 32 := rfl
  have h2 : Char.toNat '\t' = 9 := rfl
  have h3 : Char.toNat '\n' = 10 := rfl
  have h4 : Char.toNat '\r' = 13 := rfl
  have h5 : Char.toNat '\x0b' = 11 := rfl
  have h6 : Char.toNat '\x0c' = 12 := rfl
  omega

theorem toUpper_eq (c : Char) :
    c.toUpper = if c.toNat ≥ 97 ∧ c.toNat ≤ 122 then Char.ofNat (c.toNat - 32) else c := rfl

theorem toUpper_idem (c : Char) : c.toUpper.toUpper = c.toUpper := by
  rw [toUpper_eq c]
  by_cases h : c.toNat ≥ 97 ∧ c.toNat ≤ 122
  · rw [if_pos h, toUpper_eq]
    have hv : (c.toNat - 32).isValidChar := Or.inl (by omega)
    rw [charOfNat_toNat _ hv, if_neg (by omega)]
  · rw [if_neg h, toUpper_eq, if_neg h]

theorem isSpaceChar_toUpper (c : Char) : isSpaceChar c.toUpper = isSpaceChar c := by
  rw [toUpper_eq c]
  by_cases h : c.toNat ≥ 97 ∧ c.toNat ≤ 122
  · rw [if_pos h]
    have hv : (c.toNat - 32).isValidChar := Or.inl (by omega)
    rw [isSpaceChar_false_of_ge _ (by rw [charOfNat_toNat _ hv]; omega),
        isSpaceChar_false_of_ge _ (by omega)]
  · rw [if_neg h]

theorem upperStr_idem (s : Str) : upperStr (upperStr s) = upperStr s := by
  simp only [upperStr, List.map_map]
  exact List.map_congr_left (fun c _ => toUpper_idem c)

theorem stripStr_upperStr_comm (s : Str) : stripStr (upperStr s) = upperStr (stripStr s) := by
  have hp : (isSpaceChar ∘ Char.toUpper) = isSpaceChar := funext isSpaceChar_toUpper
  unfold stripStr upperStr
  rw [List.dropWhile_map, hp, ← List.map_reverse, List.dropWhile_map, hp, ← List.map_reverse]

theorem dropWhile_head_false {p : Char → Bool} {c : Char} {l : Str}
    (h : (c :: l).dropWhile p = c :: l) : p c = false := by
  by_contra hc
  have hpc : p c = true := by
    cases hpc : p c
    · exact absurd hpc hc
    · rfl
  rw [List.dropWhile_cons_of_pos hpc] at h
  have := (List.dropWhile_suffix (l := l) p).length_le
  have h2 : (List.dropWhile p l).length = l.length + 1 := by
    rw [h]
    simp
  omega

theorem dropWhile_idem (p : Char → Bool) (l : Str) :
    (l.dropWhile p).dropWhile p = l.dropWhile p := by
  induction l with
  | nil => rfl
  | cons c r ih =>
    by_cases h : p c = true
    · rw [List.dropWhile_cons_of_pos h]
      exact ih
    · have h' : p c = false := by
        cases hpc : p c
        · rfl
        · exact absurd hpc h
      rw [List.dropWhile_cons_of_neg (by simp [h']), List.dropWhile_cons_of_neg (by simp [h'])]

theorem dropWhile_of_fixed_prefix {p : Char → Bool} {a b : Str}
    (ha : a.dropWhile p = a) (hab : b <+: a) : b.dropWhile p = b := by
  cases b with
  | nil => rfl
  | cons c t =>
    obtain ⟨u, hu⟩ := hab
    have hc : p c = false := by
      apply dropWhile_head_false (l := t ++ u)
      rw [List.cons_append] at hu
      rw [hu]
      exact ha
    rw [List.dropWhile_cons_of_neg (by simp [hc])]

theorem stripStr_front (s : Str) : (stripStr s).dropWhile isSpaceChar = stripStr s := by
  apply dropWhile_of_fixed_prefix (a := s.dropWhile isSpaceChar)
  · exact dropWhile_idem _ _
  · rw [← List.reverse_reverse (s.dropWhile isSpaceChar)]
    apply List.reverse_prefix.mpr
    exact List.dropWhile_suffix _

theorem stripStr_back (s : Str) :
    (stripStr s).reverse.dropWhile isSpaceChar = (stripStr s).reverse := by
  unfold stripStr
  rw [List.reverse_reverse]
  exact dropWhile_idem _ _

theorem stripStr_idem (s : Str) : stripStr (stripStr s) = stripStr s := by
  show (((stripStr s).dropWhile isSpaceChar).reverse.dropWhile isSpaceChar).reverse = stripStr s
  rw [stripStr_front, stripStr_back, List.reverse_reverse]

theorem dropWhile_append_fixed {p : Char → Bool} {a b : Str}
    (ha : a.dropWhile p = a) (hb : b.dropWhile p = b) :
    (a ++ b).dropWhile p = a ++ b := by
  cases a with
  | nil => simpa using hb
  | cons c t =>
    have hc : p c = false := dropWhile_head_false ha
    rw [List.cons_append, List.dropWhile_cons_of_neg (by simp [hc])]

theorem stripStr_fix_append_usdt {u : Str}
    (hu : stripStr u = u) : stripStr (u ++ usdtSuffix) = u ++ usdtSuffix := by
  have hfrontU : u.dropWhile isSpaceChar = u := by
    conv_lhs => rw [← hu]
    rw [stripStr_front, hu]
  have hbackU : u.reverse.dropWhile isSpaceChar = u.reverse := by
    conv_lhs => rw [← hu]
    rw [stripStr_back, hu]
  unfold stripStr
  have hfront : (u ++ usdtSuffix).dropWhile isSpaceChar = u ++ usdtSuffix :=
    dropWhile_append_fixed hfrontU (by decide)
  have hback : (u ++ usdtSuffix).reverse.dropWhile isSpaceChar = (u ++ usdtSuffix).reverse := by
    rw [List.reverse_append]
    exact dropWhile_append_fixed (by decide) hbackU
  rw [hfront, hback, List.reverse_reverse]

theorem upperStr_stripStr_fix (s : Str) :
    upperStr (stripStr (upperStr s)) = stripStr (upperStr s) := by
  rw [stripStr_upperStr_comm, upperStr_idem, ← stripStr_upperStr_comm]

theorem upperStr_append (a b : Str) : upperStr (a ++ b) = upperStr a ++ upperStr b := by
  simp [upperStr]

theorem aliasLookup_mem {k v : Str} {T : List (Str × Str)}
    (h : SignalParser.aliasLookup k T = some v) : (k, v) ∈ T := by
  induction T with
  | nil => simp [SignalParser.aliasLookup] at h
  | cons kv r ih =>
    unfold SignalParser.aliasLookup at h
    by_cases hk : k = kv.1
    · rw [if_pos hk] at h
      have he : (k, v) = kv := by
        cases kv with
        | mk a b =>
          simp only [Option.some.injEq] at h
          simp only [hk, h]
      rw [he]
      exact List.mem_cons_self _ _
    · rw [if_neg hk] at h
      right
      exact ih h

theorem aliasLookup_none_of_ends {T : List (Str × Str)} {u : Str}
    (hkeys : ∀ kv ∈ T, ¬ usdtSuffix <:+ kv.1)
    (hu : usdtSuffix <:+ u) : SignalParser.aliasLookup u T = none := by
  induction T with
  | nil => rfl
  | cons kv r ih =>
    unfold SignalParser.aliasLookup
    rw [if_neg, ih (fun x hx => hkeys x (List.mem_cons_of_mem _ hx))]
    intro he
    exact hkeys kv (List.mem_cons_self _ _) (he ▸ hu)

theorem normalizeWith_props (T : List (Str × Str))
    (hvals : ∀ kv ∈ T, stripStr (upperStr kv.2) = kv.2 ∧ usdtSuffix <:+ kv.2)
    (hkeys : ∀ kv ∈ T, ¬ usdtSuffix <:+ kv.1) (s : Str) :
    usdtSuffix <:+ normalizeWith T s ∧
      normalizeWith T (normalizeWith T s) = normalizeWith T s := by
  have fixpoint : ∀ r : Str, stripStr (upperStr r) = r → usdtSuffix <:+ r →
      normalizeWith T r = r := by
    intro r hfix hr
    unfold normalizeWith
    rw [hfix]
    show (match SignalParser.aliasLookup r T with
          | some v => v
          | none => if usdtSuffix <:+ r then r else r ++ usdtSuffix) = r
    rw [aliasLookup_none_of_ends hkeys hr]
    exact if_pos hr
  have hstep : normalizeWith T s =
      (match SignalParser.aliasLookup (stripStr (upperStr s)) T with
       | some v => v
       | none => if usdtSuffix <:+ stripStr (upperStr s) then stripStr (upperStr s)
                 else stripStr (upperStr s) ++ usdtSuffix) := rfl
  set u := stripStr (upperStr s) with hu
  have hufix : stripStr (upperStr u) = u := by
    rw [hu, upperStr_stripStr_fix, stripStr_idem]
  cases hl : SignalParser.aliasLookup u T with
  | some v =>
    obtain ⟨hvfix, hvend⟩ := hvals _ (aliasLookup_mem hl)
    have hnv : normalizeWith T s = v := by rw [hstep, hl]
    rw [hnv]
    exact ⟨hvend, fixpoint v hvfix hvend⟩
  | none =>
    by_cases hend : usdtSuffix <:+ u
    · have hn : normalizeWith T s = u := by rw [hstep, hl, if_pos hend]
      rw [hn]
      exact ⟨hend, fixpoint u hufix hend⟩
    · have hn : normalizeWith T s = u ++ usdtSuffix := by rw [hstep, hl, if_neg hend]
      rw [hn]
      have hend2 : usdtSuffix <:+ u ++ usdtSuffix := List.suffix_append _ _
      have hfix2 : stripStr (upperStr (u ++ usdtSuffix)) = u ++ usdtSuffix := by
        rw [upperStr_append]
        have h1 : upperStr u = u := by
          rw [hu, stripStr_upperStr_comm, upperStr_idem, ← stripStr_upperStr_comm]
        have h2 : upperStr usdtSuffix = usdtSuffix := by decide
        rw [h1, h2]
        apply stripStr_fix_append_usdt
        rw [hu, stripStr_idem]
      exact ⟨hend2, fixpoint _ hfix2 hend2⟩

theorem pyRound_int_div (k : Nat) (z : ℤ) :
    pyRound k ((z : ℚ) / (10 : ℚ) ^ k) = (z : ℚ) / (10 : ℚ) ^ k := by
  have hm : ((10 : ℚ) ^ k) ≠ 0 := by positivity
  simp only [pyRound]
  rw [div_mul_cancel₀ _ hm]
  norm_num

theorem pyRound_idem (k : Nat) (x : ℚ) : pyRound k (pyRound k x) = pyRound k x := by
  have h : ∃ z : ℤ, pyRound k x = (z : ℚ) / (10 : ℚ) ^ k := by
    simp only [pyRound]
    exact ⟨_, rfl⟩
  obtain ⟨z, hz⟩ := h
  rw [hz, pyRound_int_div]

/-- C1: for every margin `M > 0`, integer leverage `L ≥ 1` and price `P > 0`,
`execute_signal` computes `size = M / (P / L) = (M * L) / P`, and
`size * P / L` recovers `M` exactly (rationals model the float arithmetic);
with balance 50, margin 5, leverage 10, price 100 the computed size is 0.5,
and `close_position_partial` at 50 % of that position submits a closing
market order for 0.25. -/
theorem C1_contract_size_arithmetic (M P : ℚ) (L : ℤ) (hM : 0 < M) (hL : 1 ≤ L)
    (hP : 0 < P) :
    BitgetClient.contractSize M P (L : ℚ) = M * (L : ℚ) / P ∧
    BitgetClient.contractSize M P (L : ℚ) * P / (L : ℚ) = M ∧
    BitgetClient.executeContractSize (some 5) 2 50 100 10 = 1 / 2 ∧
    BitgetClient.closePartialSize (BitgetClient.positionCurrentSize (1 / 2) 0) 50 = 1 / 4 := by
  have hL0 : (0 : ℚ) < (L : ℚ) := by exact_mod_cast lt_of_lt_of_le Int.zero_lt_one hL
  refine ⟨?_, ?_, ?_, ?_⟩
  · unfold BitgetClient.contractSize
    rw [div_div_eq_mul_div]
  · unfold BitgetClient.contractSize
    field_simp
  · norm_num [BitgetClient.executeContractSize, BitgetClient.executeMargin,
      BitgetClient.contractSize]
  · norm_num [BitgetClient.closePartialSize, BitgetClient.positionCurrentSize, pyRound]

/-- Witness for C1 at margin 5, leverage 10, price 100. -/
theorem C1_contract_size_arithmetic_witness :
    (0 : ℚ) < 5 ∧ (1 : ℤ) ≤ 10 ∧ (0 : ℚ) < 100 ∧
    (BitgetClient.contractSize 5 100 ((10 : ℤ) : ℚ) = 5 * ((10 : ℤ) : ℚ) / 100 ∧
     BitgetClient.contractSize 5 100 ((10 : ℤ) : ℚ) * 100 / ((10 : ℤ) : ℚ) = 5 ∧
     BitgetClient.executeContractSize (some 5) 2 50 100 10 = 1 / 2 ∧
     BitgetClient.closePartialSize (BitgetClient.positionCurrentSize (1 / 2) 0) 50 = 1 / 4) :=
  ⟨by norm_num, by norm_num, by norm_num,
   C1_contract_size_arithmetic 5 100 10 (by norm_num) (by norm_num) (by norm_num)⟩

/-- C6: the automatic protective stop uses
`priceDelta = loss / (filledQuantity / leverage) = loss * leverage / filledQuantity`,
puts the trigger at `entry - priceDelta` for a long (buy) fill and
`entry + priceDelta` for a short (sell) fill, rounds to 4 decimal places, and
the extra rounding `set_auto_stop_loss` applies before transmission leaves
the price unchanged. -/
theorem C6_auto_stop_price (loss fp fq lev : ℚ) (side : OrderSide)
    (hq : 0 < fq) (hl : 1 ≤ lev) :
    BitgetClient.autoStopLossPrice loss fp fq lev .buy = pyRound 4 (fp - loss * lev / fq) ∧
    BitgetClient.autoStopLossPrice loss fp fq lev .sell = pyRound 4 (fp + loss * lev / fq) ∧
    BitgetClient.autoStopTriggerPrice (BitgetClient.autoStopLossPrice loss fp fq lev side) =
      BitgetClient.autoStopLossPrice loss fp fq lev side := by
  refine ⟨?_, ?_, ?_⟩
  · unfold BitgetClient.autoStopLossPrice
    rw [div_div_eq_mul_div]
    simp
  · unfold BitgetClient.autoStopLossPrice
    rw [div_div_eq_mul_div]
    simp
  · unfold BitgetClient.autoStopTriggerPrice
    exact pyRound_idem _ _

/-- Witness for C6 at loss 7, entry 100, fill quantity 1/2, leverage 10. -/
theorem C6_auto_stop_price_witness :
    (0 : ℚ) < 1 / 2 ∧ (1 : ℚ) ≤ 10 ∧
    (BitgetClient.autoStopLossPrice 7 100 (1 / 2) 10 .buy =
       pyRound 4 (100 - 7 * 10 / (1 / 2)) ∧
     BitgetClient.autoStopLossPrice 7 100 (1 / 2) 10 .sell =
       pyRound 4 (100 + 7 * 10 / (1 / 2)) ∧
     BitgetClient.autoStopTriggerPrice (BitgetClient.autoStopLossPrice 7 100 (1 / 2) 10 .buy) =
       BitgetClient.autoStopLossPrice 7 100 (1 / 2) 10 .buy) :=
  ⟨by norm_num, by norm_num,
   C6_auto_stop_price 7 100 (1 / 2) 10 .buy (by norm_num) (by norm_num)⟩

/-- C8: the monitor loop's per-target trigger decision is the inclusive
side-aware comparison — a long target fires exactly when `price ≥ target`
(99.99 does not fire at target 100, 100.00 does), a short target exactly when
`price ≤ target` (100.00 fires, 100.01 does not) — and a cycle triggers the
two-phase exit for a target exactly when the target is still active and the
fetched price satisfies that comparison. -/
theorem C8_side_aware_trigger (p t : ℚ) (executed : Bool) (fetched : Option ℚ)
    (side : String) :
    (PriceMonitor.shouldExecuteTP "long" p t = true ↔ t ≤ p) ∧
    (PriceMonitor.shouldExecuteTP "short" p t = true ↔ p ≤ t) ∧
    (PriceMonitor.monitorTargetStep executed fetched side t = true ↔
      executed = false ∧ ∃ q, fetched = some q ∧ PriceMonitor.shouldExecuteTP side q t = true) ∧
    PriceMonitor.shouldExecuteTP "long" (9999 / 100) 100 = false ∧
    PriceMonitor.shouldExecuteTP "long" 100 100 = true ∧
    PriceMonitor.shouldExecuteTP "short" 100 100 = true ∧
    PriceMonitor.shouldExecuteTP "short" (10001 / 100) 100 = false := by
  refine ⟨?_, ?_, ?_, ?_, ?_, ?_, ?_⟩
  · simp [PriceMonitor.shouldExecuteTP]
  · simp [PriceMonitor.shouldExecuteTP]
  · unfold PriceMonitor.monitorTargetStep
    cases executed
    · cases fetched with
      | none => simp
      | some q => simp
    · simp
  · norm_num [PriceMonitor.shouldExecuteTP]
    decide
  · norm_num [PriceMonitor.shouldExecuteTP]
  · norm_num [PriceMonitor.shouldExecuteTP]
  · norm_num [PriceMonitor.shouldExecuteTP]
    decide

/-- C10: in both parser implementations, symbol normalization always returns
a string ending in the `USDT` quote suffix, and it is idempotent. -/
theorem C10_normalize_idempotent_suffix (s : Str) :
    (usdtSuffix <:+ SignalParser.normalizeSymbol s ∧
     SignalParser.normalizeSymbol (SignalParser.normalizeSymbol s) =
       SignalParser.normalizeSymbol s) ∧
    (usdtSuffix <:+ OptimizedSignalParser.normalizeSymbol s ∧
     OptimizedSignalParser.normalizeSymbol (OptimizedSignalParser.normalizeSymbol s) =
       OptimizedSignalParser.normalizeSymbol s) := by
  have hb1 : SignalParser.normalizeSymbol = normalizeWith SignalParser.symbolAliases := rfl
  have hb2 : OptimizedSignalParser.normalizeSymbol =
      normalizeWith OptimizedSignalParser.symbolAliases := rfl
  rw [hb1, hb2]
  exact ⟨normalizeWith_props _ (by decide) (by decide) s,
         normalizeWith_props _ (by decide) (by decide) s⟩

/-- C2 counterexample: a well-formed API error response (non-zero status
code) on every attempt is retried — `_make_request` performs 4 attempts with
linear backoff sleeps [1, 2, 3] instead of surfacing the first error
immediately, because `retry_async` retries every `Exception`, including
`BitgetAPIError`. -/
theorem C2_logical_error_retried_counterexample :
    (BitgetClient.makeRequest (fun _ => .apiError "40001" "Insufficient balance")).2.1 = 4 ∧
    (BitgetClient.makeRequest (fun _ => .apiError "40001" "Insufficient balance")).2.2 =
      [1, 2, 3] ∧
    (BitgetClient.makeRequest (fun _ => .apiError "40001" "Insufficient balance")).1 =
      .error ⟨"Insufficient balance", some "40001"⟩ ∧
    (BitgetClient.makeRequest (fun _ => .apiError "40001" "Insufficient balance")).2.1 ≠ 1 := by
  refine ⟨?_, ?_, ?_, ?_⟩ <;>
    norm_num [BitgetClient.makeRequest, Helpers.retryRun, Helpers.retryGo,
      BitgetClient.makeRequestOnce]

/-- C2 (amended): the request layer treats logical API errors exactly like
transient failures: every failing response — non-zero API status code
included — is retried up to 3 times (4 attempts in total) with linear
backoff `delay·attempt`; after exhaustion the error of the final attempt is
surfaced, still carrying the exchange's code and message; a first-attempt
success makes exactly one attempt; no call ever exceeds 4 attempts. -/
theorem C2_retry_policy (responses : Nat → BitgetClient.ApiOutcome) :
    ((∀ i, i ≤ 3 → isApiFailure (responses i) = true) →
      (BitgetClient.makeRequest responses).2.1 = 4 ∧
      (BitgetClient.makeRequest responses).2.2 = [1, 2, 3] ∧
      (BitgetClient.makeRequest responses).1 = BitgetClient.makeRequestOnce (responses 3)) ∧
    (∀ c m, (∀ i, i ≤ 3 → isApiFailure (responses i) = true) →
      responses 3 = .apiError c m →
      (BitgetClient.makeRequest responses).1 = .error ⟨m, some c⟩) ∧
    (isApiFailure (responses 0) = false →
      (BitgetClient.makeRequest responses).2.1 = 1 ∧
      (BitgetClient.makeRequest responses).2.2 = []) ∧
    (BitgetClient.makeRequest responses).2.1 ≤ 4 := by
  have herr : ∀ o, isApiFailure o = true →
      ∃ e, BitgetClient.makeRequestOnce o = .error e := by
    intro o h
    cases o <;> simp [BitgetClient.makeRequestOnce, isApiFailure] at h ⊢
  have hok : ∀ o, isApiFailure o = false →
      ∃ d, BitgetClient.makeRequestOnce o = .ok d := by
    intro o h
    cases o <;> simp [BitgetClient.makeRequestOnce, isApiFailure] at h ⊢
  have hsplit : ∀ o, (∃ e, BitgetClient.makeRequestOnce o = .error e) ∨
      (∃ d, BitgetClient.makeRequestOnce o = .ok d) := by
    intro o
    cases o <;> simp [BitgetClient.makeRequestOnce]
  refine ⟨?_, ?_, ?_, ?_⟩
  · intro h
    obtain ⟨e0, he0⟩ := herr _ (h 0 (by norm_num))
    obtain ⟨e1, he1⟩ := herr _ (h 1 (by norm_num))
    obtain ⟨e2, he2⟩ := herr _ (h 2 (by norm_num))
    obtain ⟨e3, he3⟩ := herr _ (h 3 (by norm_num))
    refine ⟨?_, ?_, ?_⟩ <;>
      norm_num [BitgetClient.makeRequest, Helpers.retryRun, Helpers.retryGo,
        he0, he1, he2, he3]
  · intro c m h h3
    obtain ⟨e0, he0⟩ := herr _ (h 0 (by norm_num))
    obtain ⟨e1, he1⟩ := herr _ (h 1 (by norm_num))
    obtain ⟨e2, he2⟩ := herr _ (h 2 (by norm_num))
    have he3 : BitgetClient.makeRequestOnce (responses 3) = .error ⟨m, some c⟩ := by
      rw [h3]
      rfl
    norm_num [BitgetClient.makeRequest, Helpers.retryRun, Helpers.retryGo,
      he0, he1, he2, he3]
  · intro h
    obtain ⟨d0, hd0⟩ := hok _ h
    norm_num [BitgetClient.makeRequest, Helpers.retryRun, Helpers.retryGo, hd0]
  · rcases hsplit (responses 0) with ⟨e0, he0⟩ | ⟨d0, hd0⟩
    · rcases hsplit (responses 1) with ⟨e1, he1⟩ | ⟨d1, hd1⟩
      · rcases hsplit (responses 2) with ⟨e2, he2⟩ | ⟨d2, hd2⟩
        · rcases hsplit (responses 3) with ⟨e3, he3⟩ | ⟨d3, hd3⟩ <;>
            norm_num [BitgetClient.makeRequest, Helpers.retryRun, Helpers.retryGo,
              he0, he1, he2]
        · norm_num [BitgetClient.makeRequest, Helpers.retryRun, Helpers.retryGo,
            he0, he1, hd2]
      · norm_num [BitgetClient.makeRequest, Helpers.retryRun, Helpers.retryGo, he0, hd1]
    · norm_num [BitgetClient.makeRequest, Helpers.retryRun, Helpers.retryGo, hd0]

/-- Witness for C2 (amended) at a constant logical-error oracle. -/
theorem C2_retry_policy_witness :
    (BitgetClient.makeRequest (fun _ => .apiError "40001" "余额不足")).2.1 = 4 ∧
    (BitgetClient.makeRequest (fun _ => .apiError "40001" "余额不足")).2.2 = [1, 2, 3] ∧
    (BitgetClient.makeRequest (fun _ => .apiError "40001" "余额不足")).1 =
      BitgetClient.makeRequestOnce (BitgetClient.ApiOutcome.apiError "40001" "余额不足") :=
  (C2_retry_policy (fun _ => .apiError "40001" "余额不足")).1 (fun _ _ => rfl)

/-- C3 counterexample: on `"#BTC 市價多 100U"` the old `SignalParser` returns
the `basic_market_signal` result (confidence 0.9, no amount) although the
higher-confidence patterns `market_signal_with_amount` (0.95) and
`full_signal` (0.98) both structurally match and produce a signal carrying
the 100 USDT amount: the patterns are tried in declaration order, not in
descending confidence order. -/
theorem C3_descending_order_counterexample :
    SignalParser.parseSignal 20 mixedMsg = some sigBtcBasic ∧
    sigBtcBasic.confidence = 9 / 10 ∧ sigBtcBasic.amount = none ∧
    SignalParser.parseWithAmount 20 (SignalParser.cleanMessage mixedMsg) =
      some { symbol := "BTCUSDT".toList, side := .buy, signalType := .market,
             amount := some 100, leverage := 20, confidence := 95 / 100 } ∧
    SignalParser.parseFull 20 (SignalParser.cleanMessage mixedMsg) =
      some { symbol := "BTCUSDT".toList, side := .buy, signalType := .market,
             amount := some 100, leverage := 20, confidence := 98 / 100 } ∧
    (9 : ℚ) / 10 < 95 / 100 ∧ (9 : ℚ) / 10 < 98 / 100 := by
  have hv : numValQ ['1', '0', '0'] [] = 100 := by
    norm_num [numValQ, digitsToNat, show '1'.toNat = 49 from rfl, show '0'.toNat = 48 from rfl]
  have hn : SignalParser.normalizeSymbol "BTC".toList = "BTCUSDT".toList := rfl
  have hval : Helpers.validateSymbol
      (strRemove usdtSuffix ['B', 'T', 'C', 'U', 'S', 'D', 'T']) = true := rfl
  refine ⟨rfl, rfl, rfl, ?_, ?_, by norm_num, by norm_num⟩
  · have hs : searchAt SignalParser.matchWithAmountAt (SignalParser.cleanMessage mixedMsg) =
        some ("BTC".toList, '多', numValQ ['1', '0', '0'] []) := rfl
    simp only [SignalParser.parseWithAmount, hs, hval, hv, SignalParser.dirOf, hn]
    norm_num
    intro hF
    exact absurd (hval.symm.trans hF) (by decide)
  · have hs : searchAt SignalParser.matchFullAt (SignalParser.cleanMessage mixedMsg) =
        some ("BTC".toList, '多', some (numValQ ['1', '0', '0'] []), none, none) := rfl
    have hl : SignalParser.extractLeverage (SignalParser.cleanMessage mixedMsg) = 1 := rfl
    simp only [SignalParser.parseFull, hs, hval, hv, hl, SignalParser.dirOf, hn]
    norm_num
    intro hF
    exact absurd (hval.symm.trans hF) (by decide)

/-- C3 (amended): only `OptimizedSignalParser` tries its patterns in
descending confidence order — its tried order is the stable
confidence-descending sort of its pattern list, first producing pattern wins;
`SignalParser` tries its patterns in fixed declaration order, whose
confidence sequence [0.9, 0.95, 0.85, 0.98, 0.8, 0.95] is not descending,
first producing pattern wins (on `"#BTC 市價多 100U"` that is the 0.9-pattern
even though 0.95- and 0.98-patterns match). -/
theorem C3_pattern_order :
    (SignalParser.signalPatterns 20).map (fun p => p.confidence) =
      [9 / 10, 95 / 100, 85 / 100, 98 / 100, 8 / 10, 95 / 100] ∧
    ¬ List.Pairwise (· ≥ ·) ((SignalParser.signalPatterns 20).map (fun p => p.confidence)) ∧
    (OptimizedSignalParser.sortedPatterns 20 2).map (fun p => p.name) =
      ["complete_signal", "market_with_amount", "multi_take_profit",
       "basic_market_signal", "single_take_profit", "stop_loss_signal"] ∧
    (OptimizedSignalParser.sortedPatterns 20 2).map (fun p => p.confidence) =
      [95 / 100, 93 / 100, 92 / 100, 9 / 10, 88 / 100, 88 / 100] ∧
    List.Pairwise (· ≥ ·)
      ((OptimizedSignalParser.sortedPatterns 20 2).map (fun p => p.confidence)) ∧
    ((OptimizedSignalParser.sortedPatterns 20 2).map (fun p => p.name)).Perm
      ((OptimizedSignalParser.oPatterns 20 2).map (fun p => p.name)) ∧
    SignalParser.parseSignal 20 mixedMsg =
      SignalParser.parseBasicMarket 20 (SignalParser.cleanMessage mixedMsg) := by
  have hs : (OptimizedSignalParser.sortedPatterns 20 2).map (fun p => p.name) =
      ["complete_signal", "market_with_amount", "multi_take_profit",
       "basic_market_signal", "single_take_profit", "stop_loss_signal"] := by
    norm_num [OptimizedSignalParser.sortedPatterns, OptimizedSignalParser.sortByConfDesc,
      OptimizedSignalParser.oPatterns, OptimizedSignalParser.insertByConfDesc]
  have hc : (OptimizedSignalParser.sortedPatterns 20 2).map (fun p => p.confidence) =
      [95 / 100, 93 / 100, 92 / 100, 9 / 10, 88 / 100, 88 / 100] := by
    norm_num [OptimizedSignalParser.sortedPatterns, OptimizedSignalParser.sortByConfDesc,
      OptimizedSignalParser.oPatterns, OptimizedSignalParser.insertByConfDesc]
  refine ⟨rfl, ?_, hs, hc, ?_, ?_, rfl⟩
  · intro h
    have h1 := (List.pairwise_cons.mp h).1 (95 / 100) (by simp)
    norm_num at h1
  · rw [hc]
    norm_num [List.pairwise_cons, List.forall_mem_cons]
  · rw [hs]
    decide

/-- Evaluation of `parse_multi_message_signal` on the three TREE messages
(shared by both C9 theorems). -/
theorem parseMulti_tree_eval :
    OptimizedSignalParser.parseMultiMessage 20 2 treeMessages = some sigTreeMulti := by
  have e367 : numValQ ['0'] ['3', '6', '7'] = 367 / 1000 := by
    norm_num [numValQ, digitsToNat, show '0'.toNat = 48 from rfl, show '3'.toNat = 51 from rfl,
      show '6'.toNat = 54 from rfl, show '7'.toNat = 55 from rfl]
  have e398 : numValQ ['0'] ['3', '9', '8'] = 398 / 1000 := by
    norm_num [numValQ, digitsToNat, show '0'.toNat = 48 from rfl, show '3'.toNat = 51 from rfl,
      show '9'.toNat = 57 from rfl, show '8'.toNat = 56 from rfl]
  have h1 : searchAt SignalParser.matchBasicAt "#TREE 市價空".toList =
      some ("TREE".toList, '空') := rfl
  have f1 : OptimizedSignalParser.findAllTP "#TREE 市價空".toList = [] := rfl
  have f2 : OptimizedSignalParser.findAllTP "第一止盈: 0.367".toList =
      [('一', numValQ ['0'] ['3', '6', '7'])] := rfl
  have f3 : OptimizedSignalParser.findAllTP "止损: 0.398".toList = [] := rfl
  have s1 : searchAt OptimizedSignalParser.matchSLColonAt "#TREE 市價空".toList = none := rfl
  have s2 : searchAt OptimizedSignalParser.matchSLColonAt "第一止盈: 0.367".toList = none := rfl
  have s3 : searchAt OptimizedSignalParser.matchSLColonAt "止损: 0.398".toList =
      some (numValQ ['0'] ['3', '9', '8'], []) := rfl
  have hch : OptimizedSignalParser.chineseNum '一' = 1 := rfl
  have hn : OptimizedSignalParser.normalizeSymbol "TREE".toList = "TREEUSDT".toList := rfl
  simp only [OptimizedSignalParser.parseMultiMessage, treeMessages, List.foldl,
    OptimizedSignalParser.multiStep, OptimizedSignalParser.tpLevelsOf,
    h1, f1, f2, f3, s1, s2, s3, hch, e367, e398, hn,
    List.filterMap_cons, List.filterMap_nil, List.append_nil, List.nil_append,
    OptimizedSignalParser.sortByLevel, OptimizedSignalParser.insertByLevel, List.foldl,
    truthyOpt, sigTreeMulti]
  norm_num [OptimizedSignalParser.insertByLevel]
  intro h
  exact absurd h (by decide)

/-- Evaluation of `parse_signal` on the single combined TREE message (shared
by both C9 theorems): the optional stop-loss group never captures. -/
theorem parseCombined_tree_eval :
    OptimizedSignalParser.parseSignal 20 2 (OptimizedSignalParser.joinNL treeMessages) =
      some sigTreeCombined := by
  have e367 : numValQ ['0'] ['3', '6', '7'] = 367 / 1000 := by
    norm_num [numValQ, digitsToNat, show '0'.toNat = 48 from rfl, show '3'.toNat = 51 from rfl,
      show '6'.toNat = 54 from rfl, show '7'.toNat = 55 from rfl]
  have hsort : OptimizedSignalParser.sortedPatterns 20 2 =
      [⟨"complete_signal", 95 / 100, OptimizedSignalParser.oParseComplete 20 2⟩,
       ⟨"market_with_amount", 93 / 100, OptimizedSignalParser.oParseMarketWithAmount 20⟩,
       ⟨"multi_take_profit", 92 / 100, OptimizedSignalParser.oParseMultiTP⟩,
       ⟨"basic_market_signal", 9 / 10, OptimizedSignalParser.oParseBasic 20 2⟩,
       ⟨"single_take_profit", 88 / 100, OptimizedSignalParser.oParseSingleTP⟩,
       ⟨"stop_loss_signal", 88 / 100, OptimizedSignalParser.oParseStopLoss⟩] := by
    norm_num [OptimizedSignalParser.sortedPatterns, OptimizedSignalParser.sortByConfDesc,
      OptimizedSignalParser.oPatterns, OptimizedSignalParser.insertByConfDesc]
  have hstrip : stripStr (OptimizedSignalParser.joinNL treeMessages) =
      OptimizedSignalParser.joinNL treeMessages := rfl
  have hc : searchAt OptimizedSignalParser.matchCompleteAt
      (OptimizedSignalParser.joinNL treeMessages) =
      some ("TREE".toList, '空', none, none) := rfl
  have hf : OptimizedSignalParser.findAllTP (OptimizedSignalParser.joinNL treeMessages) =
      [('一', numValQ ['0'] ['3', '6', '7'])] := rfl
  have hch : OptimizedSignalParser.chineseNum '一' = 1 := rfl
  have hn : OptimizedSignalParser.normalizeSymbol "TREE".toList = "TREEUSDT".toList := rfl
  have hne : OptimizedSignalParser.joinNL treeMessages ≠ [] := by
    intro h
    exact absurd (congrArg List.length h) (by norm_num [treeMessages,
      OptimizedSignalParser.joinNL])
  simp only [OptimizedSignalParser.parseSignal, hstrip, hsort, List.findSome?,
    OptimizedSignalParser.oParseComplete, hc, OptimizedSignalParser.tpLevelsOf, hf, hch, e367,
    List.filterMap_cons, List.filterMap_nil,
    OptimizedSignalParser.sortByLevel, OptimizedSignalParser.insertByLevel, List.foldl,
    truthyOpt, hn, sigTreeCombined]
  norm_num [OptimizedSignalParser.insertByLevel]
  refine ⟨hne, ?_⟩
  intro h
  exact absurd h (by decide)

/-- C9 counterexample: the multi-message parse of the TREE scenario carries
stop-loss 0.398, but parsing the single combined message yields no stop-loss
at all — the two signals are not identical, contradicting the claim's
"identical to parsing the single combined message". -/
theorem C9_combined_identity_counterexample :
    OptimizedSignalParser.parseMultiMessage 20 2 treeMessages = some sigTreeMulti ∧
    OptimizedSignalParser.parseSignal 20 2 (OptimizedSignalParser.joinNL treeMessages) =
      some sigTreeCombined ∧
    sigTreeMulti.stopLoss = some (398 / 1000) ∧
    sigTreeCombined.stopLoss = none ∧
    sigTreeMulti ≠ sigTreeCombined := by
  refine ⟨parseMulti_tree_eval, parseCombined_tree_eval, rfl, rfl, ?_⟩
  intro h
  have h2 := congrArg OTradingSignal.stopLoss h
  rw [show sigTreeMulti.stopLoss = some (398 / 1000) from rfl,
      show sigTreeCombined.stopLoss = none from rfl] at h2
  exact Option.noConfusion h2

/-- C9 (amended): `parse_multi_message_signal` on
["#TREE 市價空", "第一止盈: 0.367", "止损: 0.398"] yields exactly one signal
with symbol TREEUSDT, side short (sell), take-profit 0.367 and stop-loss
0.398; parsing the single combined message agrees in symbol, side and
take-profit, but carries no stop-loss (its optional stop-loss regex group
never captures), so the two results differ in the stop-loss field only. -/
theorem C9_multi_message_tree :
    OptimizedSignalParser.parseMultiMessage 20 2 treeMessages = some sigTreeMulti ∧
    sigTreeMulti.symbol = "TREEUSDT".toList ∧
    sigTreeMulti.side = .sell ∧
    sigTreeMulti.takeProfit = some (367 / 1000) ∧
    sigTreeMulti.stopLoss = some (398 / 1000) ∧
    OptimizedSignalParser.parseSignal 20 2 (OptimizedSignalParser.joinNL treeMessages) =
      some sigTreeCombined ∧
    sigTreeCombined.symbol = sigTreeMulti.symbol ∧
    sigTreeCombined.side = sigTreeMulti.side ∧
    sigTreeCombined.takeProfit = sigTreeMulti.takeProfit :=
  ⟨parseMulti_tree_eval, rfl, rfl, rfl, rfl, parseCombined_tree_eval, rfl, rfl, rfl⟩

set_option maxHeartbeats 2000000 in
/-- Helper: no branch of `execute_signal` ever issues a cancel-order call —
the method has no rollback path at all. -/
theorem executeSignal_no_cancel (cfg2 : BitgetClient.ExecConfig)
    (env2 : BitgetClient.ExecEnv) (sig2 : TradingSignal) :
    BitgetClient.ExecAction.cancelOrder ∉ (BitgetClient.executeSignal cfg2 env2 sig2).actions := by
  obtain ⟨bal, symv, cp, por, osf, slr, tpr, plr⟩ := env2
  unfold BitgetClient.executeSignal
  rcases cp with _ | p2 <;>
    rcases por with e | o <;>
      rcases osf with _ | ⟨fp2, fq2⟩ <;>
        rcases slr with se | so <;>
          rcases tpr with te | tpo <;>
            (try rcases o with _ | oi2) <;>
              split_ifs <;> simp_all <;> (try (split_ifs <;> simp_all))

/-- C4: when the market order placed by `execute_signal` fills (positive fill
price and quantity) but the protective fixed-loss stop placement fails after
all retries (`set_auto_stop_loss` returns `None`), the result still reports
success with the filled order attached; the stop failure surfaces only as a
missing (`None`) auto-stop order even though the plan-order call was made,
and no branch of the method ever cancels the filled order. -/
theorem C4_stop_failure_not_fatal (cfg : BitgetClient.ExecConfig)
    (env : BitgetClient.ExecEnv) (sig : TradingSignal) (p fp fq : ℚ)
    (oi : BitgetClient.OrderInfo)
    (hbal : 0 < env.balance) (hsym : env.symbolValid = true)
    (hp : env.currentPrice = some p) (hp0 : 0 < p)
    (hord : env.placeOrderResult = .ok (some oi))
    (hfill : env.orderStatusFilled = some (fp, fq)) (hfp : 0 < fp) (hfq : 0 < fq)
    (hplan : env.planOrderResult = none)
    (hmk : sig.signalType = .market) :
    (BitgetClient.executeSignal cfg env sig).success = true ∧
    (BitgetClient.executeSignal cfg env sig).order = some oi ∧
    (BitgetClient.executeSignal cfg env sig).autoStopLossOrder = none ∧
    BitgetClient.ExecAction.placePlanOrder ∈ (BitgetClient.executeSignal cfg env sig).actions ∧
    BitgetClient.ExecAction.cancelOrder ∉ (BitgetClient.executeSignal cfg env sig).actions := by
  refine ⟨?_, ?_, ?_, ?_, executeSignal_no_cancel cfg env sig⟩ <;>
  · unfold BitgetClient.executeSignal
    rw [if_neg (not_le.mpr hbal), hsym, hp, hord, hfill, hplan, hmk]
    simp [not_le.mpr hp0, hfp, hfq]

/-- Witness for C4 in the scenario environment: balance 50, price 100, order
`ORD1` filled at (100, 0.5), plan-order placement failing (`None`). -/
theorem C4_stop_failure_not_fatal_witness :
    (BitgetClient.executeSignal {} envStopFails sigPlainMarket).success = true ∧
    (BitgetClient.executeSignal {} envStopFails sigPlainMarket).order =
      some ⟨"ORD1"⟩ ∧
    (BitgetClient.executeSignal {} envStopFails sigPlainMarket).autoStopLossOrder = none ∧
    BitgetClient.ExecAction.placePlanOrder ∈
      (BitgetClient.executeSignal {} envStopFails sigPlainMarket).actions ∧
    BitgetClient.ExecAction.cancelOrder ∉
      (BitgetClient.executeSignal {} envStopFails sigPlainMarket).actions :=
  C4_stop_failure_not_fatal {} envStopFails sigPlainMarket 100 100 (1 / 2) ⟨"ORD1"⟩
    (by norm_num [envStopFails]) rfl rfl (by norm_num) rfl rfl (by norm_num) (by norm_num)
    rfl rfl

/-- C5: provided the UTC date has not rolled over since the last daily reset,
`check_signal_risk` leaves the risk state unchanged, and each of the seven
listed gates — non-positive balance, daily trade cap, daily loss limit,
consecutive-loss cap, cooldown, oversized amount, existing same-direction
position — when it is the first to fail, rejects the signal with exactly that
gate's reason. -/
theorem C5_gate_rejection_state_unchanged (cfg : RiskManager.RMConfig)
    (st0 : RiskManager.RiskState) (nowDate : ℤ) (nowTime : ℚ)
    (sig : TradingSignal) (balance : ℚ)
    (hdate : nowDate = st0.lastResetDate) :
    (RiskManager.checkSignalRisk cfg st0 nowDate nowTime sig balance).2 = st0 ∧
    (balance ≤ 0 →
      (RiskManager.checkSignalRisk cfg st0 nowDate nowTime sig balance).1 =
        (false, .insufficientBalance)) ∧
    (¬ balance ≤ 0 → st0.tradeCountToday ≥ cfg.maxTradesPerDay →
      (RiskManager.checkSignalRisk cfg st0 nowDate nowTime sig balance).1 =
        (false, .dailyTradeCap cfg.maxTradesPerDay)) ∧
    (¬ balance ≤ 0 → ¬ st0.tradeCountToday ≥ cfg.maxTradesPerDay →
      st0.dailyPnl < -cfg.maxDailyLoss →
      (RiskManager.checkSignalRisk cfg st0 nowDate nowTime sig balance).1 =
        (false, .dailyLossLimit cfg.maxDailyLoss)) ∧
    (¬ balance ≤ 0 → ¬ st0.tradeCountToday ≥ cfg.maxTradesPerDay →
      ¬ st0.dailyPnl < -cfg.maxDailyLoss →
      st0.consecutiveLosses ≥ cfg.maxConsecutiveLosses →
      (RiskManager.checkSignalRisk cfg st0 nowDate nowTime sig balance).1 =
        (false, .consecutiveLossCap st0.consecutiveLosses)) ∧
    (¬ balance ≤ 0 → ¬ st0.tradeCountToday ≥ cfg.maxTradesPerDay →
      ¬ st0.dailyPnl < -cfg.maxDailyLoss →
      ¬ st0.consecutiveLosses ≥ cfg.maxConsecutiveLosses →
      RiskManager.inCooldown cfg st0 nowTime = true →
      (RiskManager.checkSignalRisk cfg st0 nowDate nowTime sig balance).1 =
        (false, .cooldown)) ∧
    (¬ balance ≤ 0 → ¬ st0.tradeCountToday ≥ cfg.maxTradesPerDay →
      ¬ st0.dailyPnl < -cfg.maxDailyLoss →
      ¬ st0.consecutiveLosses ≥ cfg.maxConsecutiveLosses →
      ¬ RiskManager.inCooldown cfg st0 nowTime = true →
      RiskManager.suggestedAmount cfg balance sig > cfg.maxPositionSize →
      (RiskManager.checkSignalRisk cfg st0 nowDate nowTime sig balance).1 =
        (false, .amountTooLarge cfg.maxPositionSize)) ∧
    (¬ balance ≤ 0 → ¬ st0.tradeCountToday ≥ cfg.maxTradesPerDay →
      ¬ st0.dailyPnl < -cfg.maxDailyLoss →
      ¬ st0.consecutiveLosses ≥ cfg.maxConsecutiveLosses →
      ¬ RiskManager.inCooldown cfg st0 nowTime = true →
      ¬ RiskManager.suggestedAmount cfg balance sig > cfg.maxPositionSize →
      (st0.positions.find? (fun p => p.symbol = sig.symbol)).any
        (fun p => p.side = sideValue sig.side) = true →
      (RiskManager.checkSignalRisk cfg st0 nowDate nowTime sig balance).1 =
        (false, .samePosition sig.symbol)) := by
  have hst : RiskManager.resetDaily st0 nowDate = st0 := by
    simp [RiskManager.resetDaily, hdate]
  refine ⟨?_, ?_, ?_, ?_, ?_, ?_, ?_, ?_⟩
  · simp only [RiskManager.checkSignalRisk, hst]
    split_ifs <;> rfl
  · intro h1
    simp only [RiskManager.checkSignalRisk, hst]
    rw [if_pos h1]
  · intro h1 h2
    simp only [RiskManager.checkSignalRisk, hst]
    rw [if_neg h1, if_pos h2]
  · intro h1 h2 h3
    simp only [RiskManager.checkSignalRisk, hst]
    rw [if_neg h1, if_neg h2, if_pos h3]
  · intro h1 h2 h3 h4
    simp only [RiskManager.checkSignalRisk, hst]
    rw [if_neg h1, if_neg h2, if_neg h3, if_pos h4]
  · intro h1 h2 h3 h4 h5
    simp only [RiskManager.checkSignalRisk, hst]
    rw [if_neg h1, if_neg h2, if_neg h3, if_neg h4, if_pos h5]
  · intro h1 h2 h3 h4 h5 h6
    simp only [RiskManager.checkSignalRisk, hst]
    rw [if_neg h1, if_neg h2, if_neg h3, if_neg h4, if_neg h5, if_pos h6]
  · intro h1 h2 h3 h4 h5 h6 h7
    simp only [RiskManager.checkSignalRisk, hst]
    rw [if_neg h1, if_neg h2, if_neg h3, if_neg h4, if_neg h5, if_neg h6, if_pos h7]

/-- Witness for C5: with the daily loss limit 50 and daily P&L −100 (all
earlier gates passing), the signal is rejected with the daily-loss reason and
the state is returned unchanged. -/
theorem C5_gate_rejection_state_unchanged_witness :
    (RiskManager.checkSignalRisk
      { maxDailyLoss := 50, maxPositionSize := 1000, riskPercentage := 2 }
      { dailyPnl := -100, tradeCountToday := 0, consecutiveLosses := 0,
        lastResetDate := 10, positions := [], tradeHistory := [],
        lastTradeTime := none } 10 0 sigPlainMarket 100).2 =
      { dailyPnl := -100, tradeCountToday := 0, consecutiveLosses := 0,
        lastResetDate := 10, positions := [], tradeHistory := [],
        lastTradeTime := none } ∧
    (RiskManager.checkSignalRisk
      { maxDailyLoss := 50, maxPositionSize := 1000, riskPercentage := 2 }
      { dailyPnl := -100, tradeCountToday := 0, consecutiveLosses := 0,
        lastResetDate := 10, positions := [], tradeHistory := [],
        lastTradeTime := none } 10 0 sigPlainMarket 100).1 =
      (false, .dailyLossLimit 50) := by
  have h := C5_gate_rejection_state_unchanged
    { maxDailyLoss := 50, maxPositionSize := 1000, riskPercentage := 2 }
    { dailyPnl := -100, tradeCountToday := 0, consecutiveLosses := 0,
      lastResetDate := 10, positions := [], tradeHistory := [],
      lastTradeTime := none } 10 0 sigPlainMarket 100 rfl
  exact ⟨h.1, h.2.2.2.1 (by norm_num) (by norm_num) (by norm_num)⟩

/-- Counterexample to C7 as stated: the old parser's `validate_signal`
accepts a sell signal whose stop-loss is `0.0` and take-profit `5.0` — both
prices are present, the short-direction invariant `take-profit < stop-loss`
fails, yet validation passes, because the direction check is guarded by
Python truthiness (`signal.stop_loss and signal.take_profit`) and a `0.0`
price is falsy. -/
theorem C7_zero_stop_counterexample :
    (SignalParser.validateSignal
      { symbol := "BTCUSDT".toList, side := .sell, signalType := .market,
        stopLoss := some 0, takeProfit := some 5, leverage := 20,
        confidence := 8 / 10 }).1 = true ∧
    ¬ ((5 : ℚ) < (0 : ℚ)) := by
  constructor
  · have hval : Helpers.validateSymbol
        (strRemove usdtSuffix ['B', 'T', 'C', 'U', 'S', 'D', 'T']) = true := rfl
    norm_num [SignalParser.validateSignal, truthyOpt, hval]
    decide
  · norm_num

/-- C7 amended: whenever both prices are present and (for the old parser)
both are non-zero, a signal violating the direction invariant is rejected —
the old parser reports `false` with the stated direction error message, the
optimized parser returns `false`; when either price of the old parser is
zero the truthiness guard skips the direction check entirely (see the
counterexample). -/
theorem C7_direction_validation (sig : TradingSignal) (osig : OTradingSignal)
    (sl tp osl otp : ℚ) :
    (sig.stopLoss = some sl → sig.takeProfit = some tp → sl ≠ 0 → tp ≠ 0 →
      ((sig.side = .buy → ¬ (sl < tp) →
         (SignalParser.validateSignal sig).1 = false ∧
         "做多时止损价格应低于止盈价格" ∈ (SignalParser.validateSignal sig).2) ∧
       (sig.side = .sell → ¬ (tp < sl) →
         (SignalParser.validateSignal sig).1 = false ∧
         "做空时止损价格应高于止盈价格" ∈ (SignalParser.validateSignal sig).2))) ∧
    (osig.stopLoss = some osl → osig.takeProfit = some otp →
      ((osig.side = .buy → ¬ (osl < otp) →
         OptimizedSignalParser.validateSignal osig = false) ∧
       (osig.side = .sell → ¬ (otp < osl) →
         OptimizedSignalParser.validateSignal osig = false))) := by
  constructor
  · intro hsl htp hsl0 htp0
    constructor
    · intro hside hlt
      have hge : sl ≥ tp := not_lt.mp hlt
      simp only [SignalParser.validateSignal, hsl, htp, truthyOpt, hside]
      norm_num [hsl0, htp0, hge]
      intros
      simp
    · intro hside hlt
      have hge : sl ≤ tp := not_lt.mp hlt
      have hnb : sig.side ≠ .buy := by
        rw [hside]
        intro h
        exact OrderSide.noConfusion h
      simp only [SignalParser.validateSignal, hsl, htp, truthyOpt, hnb]
      norm_num [hsl0, htp0, hge]
      intros
      simp
  · intro hsl htp
    constructor
    · intro hside hlt
      have hge : otp ≤ osl := not_lt.mp hlt
      simp only [OptimizedSignalParser.validateSignal, hsl, htp,
        OptimizedSignalParser.nonPosOpt, truthyOpt, hside]
      split_ifs with h1 h2 h3 h4 h5 h6 h7
      all_goals try rfl
      · exact h7 (by simpa using hge)
      · simp only [decide_eq_true_eq] at h3 h4 h6
        push_neg at h3 h4 h6
        exact absurd (h6 (ne_of_gt h3)) (ne_of_gt h4)
    · intro hside hlt
      have hge : osl ≤ otp := not_lt.mp hlt
      have hnb : osig.side ≠ .buy := by
        rw [hside]
        intro h
        exact OrderSide.noConfusion h
      simp only [OptimizedSignalParser.validateSignal, hsl, htp,
        OptimizedSignalParser.nonPosOpt, truthyOpt, hnb]
      split_ifs with h1 h2 h3 h4 h5 h6 h7 h8
      all_goals try rfl
      all_goals try exact h7
      · have hx : ¬ (some otp).getD 0 ≥ (some osl).getD 0 := by assumption
        exact hx (by simpa using hge)
      · simp only [decide_eq_true_eq] at h3 h4 h6
        push_neg at h3 h4 h6
        exact absurd (h6 (ne_of_gt h3)) (ne_of_gt h4)

/-- Witness for C7: a long signal with stop-loss 10 above take-profit 5 is
rejected by the old parser with the direction error; a short optimized-parser
signal with stop-loss 5 below take-profit 10 is rejected as well. -/
theorem C7_direction_validation_witness :
    (SignalParser.validateSignal
      { symbol := "BTCUSDT".toList, side := .buy, signalType := .market,
        stopLoss := some 10, takeProfit := some 5, leverage := 20,
        confidence := 9 / 10 }).1 = false ∧
    "做多时止损价格应低于止盈价格" ∈
      (SignalParser.validateSignal
        { symbol := "BTCUSDT".toList, side := .buy, signalType := .market,
          stopLoss := some 10, takeProfit := some 5, leverage := 20,
          confidence := 9 / 10 }).2 ∧
    OptimizedSignalParser.validateSignal
      { symbol := "BTCUSDT".toList, side := .sell, signalType := .market,
        amount := some 2, stopLoss := some 5, takeProfit := some 10,
        leverage := 20, confidence := 9 / 10 } = false := by
  have h := C7_direction_validation
    { symbol := "BTCUSDT".toList, side := .buy, signalType := .market,
      stopLoss := some 10, takeProfit := some 5, leverage := 20,
      confidence := 9 / 10 }
    { symbol := "BTCUSDT".toList, side := .sell, signalType := .market,
      amount := some 2, stopLoss := some 5, takeProfit := some 10,
      leverage := 20, confidence := 9 / 10 } 10 5 5 10
  obtain ⟨hOld, hOpt⟩ := h
  have h1 := (hOld rfl rfl (by norm_num) (by norm_num)).1 rfl (by norm_num)
  have h2 := (hOpt rfl rfl).2 rfl (by norm_num)
  exact ⟨h1.1, h1.2, h2⟩
